import Mathlib

set_option maxHeartbeats 1000000

namespace Transcriptgrab

/-! Shallow embedding of the transcript-acquisition pipeline of the
Transcriptgrab repository: `api/transcript.js` (the caption-extractor
revision), the earlier multi-strategy revision of the same file
(`src/unnamed/part_012`) and the Supadata revision (`src/unnamed/part_013`).

Modeling conventions, used uniformly below:
  * JavaScript strings are lists of characters (`Str`); string
    concatenation is list append, `s.trim()` is `jsTrim`, `s.endsWith(c)`
    inspects the last character, and the truthiness of a string (`s || d`)
    is the test `s = []`.
  * JavaScript numbers coming from JSON are rationals (`Rat`) for
    timestamps and `Int`/`Nat` for counters; a JSON field that may be
    absent (or an unparseable `parseFloat`/`parseInt` input) is an
    `Option`.
  * A JavaScript exception is an `Except JsErr` value; each strategy
    function's top-level `try { ... } catch (err) { ... }` is the `match`
    that wraps the strategy's body.
  * Network responses are inputs: every `await fetch(...)`/`.json()` result
    is a field of an environment structure handed to the strategy, with
    `Except` marking calls that may reject. -/

/-- JavaScript strings, modeled as lists of characters. -/
abbrev Str := List Char

/-- Error message carried by a JavaScript exception (`err.message`). -/
abbrev JsErr := Str

/-- Model of String.prototype.trim: drop whitespace from both ends. -/
def jsTrim (l : Str) : Str :=
  ((l.dropWhile Char.isWhitespace).reverse.dropWhile Char.isWhitespace).reverse

/-- Model of the JavaScript idiom `s || d` for strings: an empty (falsy)
string falls back to the default. -/
def strOr (s d : Str) : Str := if s = [] then d else s

/-- Model of `x || null` for an optional string: a missing or empty string
becomes null. -/
def jsOrNull (o : Option Str) : Option Str :=
  match o with
  | some t => if t = [] then none else some t
  | none => none

/-- Model of `x || 0` for a JSON number field: a missing field (or a
`parseFloat` that returned NaN) becomes 0; any other value, including
negative ones, passes through. -/
def ratOr0 (o : Option Rat) : Rat := o.getD 0

/-- Decimal rendering of a natural number (for messages such as
`Innertube HTTP 403`). -/
def natStr (n : Nat) : Str := (Nat.repr n).data

/-- Model of JavaScript Math.round: round half towards positive infinity. -/
def jsRound (q : Rat) : Int := Rat.floor (q + 1 / 2)

/-- Transcript segment, the common normalized shape
`{ start: seconds, duration: seconds, text }`. -/
structure Segment where
  start : Rat
  duration : Rat
  text : Str
deriving DecidableEq

/-- The spec's segment invariant, as a decidable test: `start >= 0`,
`duration >= 0`, and the text is non-empty after trimming. -/
def segOk (s : Segment) : Bool :=
  decide (0 ≤ s.start) && decide (0 ≤ s.duration) && decide (jsTrim s.text ≠ [])

/-- Transcript result payload placed in `data` on a successful outcome.
Fields that only some revisions set carry defaults. -/
structure TranscriptData where
  title : Str
  videoId : Str := []
  videoUrl : Str := []
  platform : Str := []
  language : Str
  isAutoGenerated : Bool
  isSpeechToText : Bool := false
  durationSeconds : Option Int
  segments : List Segment
  totalSegments : Nat
deriving DecidableEq

/-- Strategy attempt outcome `{ success, data?, error?, transcriptId?,
async?, noCaptions? }`. -/
structure Outcome where
  success : Bool
  data : Option TranscriptData := none
  error : Option Str := none
  transcriptId : Option Str := none
  async : Bool := false
  noCaptions : Bool := false
deriving DecidableEq

/-- Failure outcome `{ success: false, error: msg }`. -/
def mkFailure (m : Str) : Outcome := { success := false, error := some m }

/-! ### In-memory rate limiter (api/transcript.js lines 23-41)

The module-level `rateMap` keys entries by IP and each key evolves
independently, so the map is modeled by the state of one key: `none` when
the key is absent, `some entry` otherwise.  `isRateLimited` returns the
limited flag together with the entry it stores back into the map. -/

/-- Number of requests allowed per window (`RATE_LIMIT = 10`). -/
def RATE_LIMIT : Nat := 10

/-- Window length in milliseconds (`RATE_WINDOW = 60000`). -/
def RATE_WINDOW : Int := 60000

/-- Entry stored in `rateMap`: `{ count, resetAt }`. -/
structure RateEntry where
  count : Nat
  resetAt : Int
deriving DecidableEq

/-- Embedding of `isRateLimited(ip)` (api/transcript.js lines 27-41) for a
single key, with `now = Date.now()` passed explicitly. -/
def isRateLimited (now : Int) (entry : Option RateEntry) : Bool × RateEntry :=
  match entry with
  | none => (false, { count := 1, resetAt := now + RATE_WINDOW })
  | some e =>
    if e.resetAt < now then (false, { count := 1, resetAt := now + RATE_WINDOW })
    else
      let e2 : RateEntry := { e with count := e.count + 1 }
      (decide (RATE_LIMIT < e2.count), e2)

/-- Repeated calls of `isRateLimited` for one key: the list of limited
flags, in request order, and the final stored entry. -/
def runLimiter (times : List Int) (st : Option RateEntry) : List Bool × Option RateEntry :=
  match times with
  | [] => ([], st)
  | t :: ts =>
    let r := isRateLimited t st
    let rest := runLimiter ts (some r.2)
    (r.1 :: rest.1, rest.2)

/-! ### STT word regrouping (api/transcript.js lines 296-346; the earlier
revision `src/unnamed/part_012` lines 507-557 is character-identical). -/

/-- AssemblyAI word item: millisecond timestamps and text. -/
structure Word where
  start : Rat
  «end» : Rat
  text : Str
deriving DecidableEq

/-- The mutable `currentSeg` accumulator of `groupWordsIntoSegments`. -/
structure CurSeg where
  start : Rat
  text : Str
  wordCount : Nat
  lastEnd : Rat
deriving DecidableEq

/-- The three shared mutation lines of the loop body:
`currentSeg.text += (currentSeg.text ? ' ' : '') + word.text;`
`currentSeg.wordCount++; currentSeg.lastEnd = word.end;`. -/
def addWord (c : CurSeg) (w : Word) : CurSeg :=
  { c with
    text := c.text ++ (if c.text = [] then [] else ([' '])) ++ w.text
    wordCount := c.wordCount + 1
    lastEnd := w.«end» }

/-- The fresh `currentSeg` object created at a segment boundary. -/
def newSeg (w : Word) : CurSeg :=
  { start := w.start / 1000, text := [], wordCount := 0, lastEnd := w.«end» }

/-- Test for `text.endsWith('.') || text.endsWith('?') || text.endsWith('!')`. -/
def endsPunct (t : Str) : Bool :=
  t.getLast? == some ('.') || t.getLast? == some ('?') || t.getLast? == some ('!')

/-- The `needsNewSegment` condition of the loop. -/
def needsNewSegment (cur : Option CurSeg) (w : Word) : Bool :=
  match cur with
  | none => true
  | some c =>
    decide (18 ≤ c.wordCount) || decide ((1500 : Rat) < w.start - c.lastEnd) ||
      endsPunct c.text

/-- The `segments.push({...})` object: rounds the start and the duration to
hundredths of a second. -/
def finalize (c : CurSeg) : Segment :=
  { start := (jsRound (c.start * 100) : Rat) / 100
    duration := (jsRound ((c.lastEnd / 1000 - c.start) * 100) : Rat) / 100
    text := c.text }

/-- One iteration of the `for (const word of words)` loop, acting on the
pair (segments pushed so far, currentSeg). -/
def stepWord (acc : List Segment × Option CurSeg) (w : Word) : List Segment × Option CurSeg :=
  if needsNewSegment acc.2 w then
    let segs := match acc.2 with
      | some c => acc.1 ++ [finalize c]
      | none => acc.1
    (segs, some (addWord (newSeg w) w))
  else
    match acc.2 with
    | some c => (acc.1, some (addWord c w))
    | none => (acc.1, none)

/-- Embedding of `groupWordsIntoSegments(words, fullText)`
(api/transcript.js lines 296-346).  A missing `words` argument and a
missing `fullText` collapse to the empty list / empty string, exactly as
the code's truthiness tests treat them. -/
def groupWordsIntoSegments (words : List Word) (fullText : Str) : List Segment :=
  if words.isEmpty then
    if fullText ≠ [] then [{ start := 0, duration := 0, text := fullText }] else []
  else
    let r := words.foldl stepWord ([], none)
    match r.2 with
    | some c => if c.text ≠ [] then r.1 ++ [finalize c] else r.1
    | none => r.1

/-- Consecutive pieces of eighteen words: the boundaries at which the
grouping loop starts a new segment when no pause or punctuation break
occurs. -/
def chunk18 (l : List Word) : List (List Word) :=
  if h : l = [] then []
  else l.take 18 :: chunk18 (l.drop 18)
termination_by l.length
decreasing_by
  simp only [List.length_drop]
  have hp : 0 < l.length := List.length_pos.mpr h
  omega

/-- The segment the loop builds from one run of words kept in a single
accumulator: the first word opens the accumulator, the rest are appended,
and the result is pushed. -/
def chunkSeg : List Word → Segment
  | [] => { start := 0, duration := 0, text := [] }
  | w :: ws => finalize (ws.foldl addWord (addWord (newSeg w) w))

/-- The gap condition threaded through a word run: each word starts at
most 1.5 seconds after its predecessor's end (the first relative to the
given end time). -/
def chainGap (lastEnd : Rat) : List Word → Prop
  | [] => True
  | w :: ws => w.start - lastEnd ≤ 1500 ∧ chainGap w.«end» ws

/-! ### Strategy: youtube-caption-extractor (api/transcript.js lines 162-199) -/

/-- Subtitle item returned by the extractor package; `start` and `dur`
hold the `parseFloat` results of the corresponding string fields (`none`
models an unparseable value, i.e. NaN). -/
structure Subtitle where
  start : Option Rat
  dur : Option Rat
  text : Str
deriving DecidableEq

/-- Result of `getVideoDetails`; a missing `subtitles` field collapses to
the empty list, exactly as the code's `!details.subtitles ||
details.subtitles.length === 0` test treats it. -/
structure VideoDetails where
  title : Str
  subtitles : List Subtitle
deriving DecidableEq

/-- The segment mapping of `tryCaptionExtractor` (lines 170-176): keep
subtitles whose text is truthy and trims to something non-empty, then map
to the common shape. -/
def extractorSegments (subs : List Subtitle) : List Segment :=
  (subs.filter (fun s => decide (s.text ≠ []) && decide (jsTrim s.text ≠ []))).map (fun s =>
    { start := ratOr0 s.start, duration := ratOr0 s.dur, text := jsTrim s.text })

/-- Environment of `tryCaptionExtractor`: the one awaited call
`getVideoDetails({videoID, lang})`, which may reject or return nothing. -/
structure ExtractorEnv where
  getVideoDetails : Except JsErr (Option VideoDetails)

/-- Body of `tryCaptionExtractor` inside its try/catch. -/
def tryCaptionExtractorBody (videoId : Str) (env : ExtractorEnv) : Except JsErr Outcome :=
  match env.getVideoDetails with
  | .error e => .error e
  | .ok none => .ok (mkFailure (("No captions returned by extractor").data))
  | .ok (some details) =>
    if details.subtitles.isEmpty then
      .ok (mkFailure (("No captions returned by extractor").data))
    else
      let segments := extractorSegments details.subtitles
      if segments.isEmpty then .ok (mkFailure (("Extractor returned empty captions").data))
      else
        .ok { success := true
              data := some { title := strOr details.title ((("Video ").data) ++ videoId)
                             videoId := videoId
                             language := ("en").data
                             isAutoGenerated := false
                             durationSeconds := none
                             segments := segments
                             totalSegments := segments.length } }

/-- Embedding of `tryCaptionExtractor` (lines 162-199); the `match` is the
function's top-level try/catch. -/
def tryCaptionExtractor (videoId : Str) (env : ExtractorEnv) : Outcome :=
  match tryCaptionExtractorBody videoId env with
  | .ok o => o
  | .error e => mkFailure ((("Extractor error: ").data) ++ e)

/-! ### json3 caption parsing (src/unnamed/part_012 lines 401-410) -/

/-- One entry of `e.segs`. -/
structure Json3Seg where
  utf8 : Option Str
deriving DecidableEq

/-- One json3 caption event; a missing `segs` field collapses to the empty
list (both fail the `e.segs && e.segs.length > 0` filter). -/
structure Json3Event where
  tStartMs : Option Rat
  dDurationMs : Option Rat
  segs : List Json3Seg
deriving DecidableEq

/-- Embedding of `parseJson3Events` (lines 401-410). -/
def parseJson3Events (events : List Json3Event) : List Segment :=
  ((events.filter (fun e => decide (0 < e.segs.length))).map (fun e =>
    { start := ratOr0 e.tStartMs / 1000
      duration := ratOr0 e.dDurationMs / 1000
      text := jsTrim ((e.segs.map (fun s => s.utf8.getD [])).flatten) })).filter
    (fun s => decide (0 < s.text.length))

/-! ### Caption tracks and the tie-break policies -/

/-- A caption track from the player response or the scraped page. -/
structure CaptionTrack where
  baseUrl : Str
  languageCode : Str
  kind : Option Str
deriving DecidableEq

/-- String constant: the language code selected by both pickers. -/
def engStr : Str := ("en").data

/-- String constant: the `kind` value marking auto-generated tracks. -/
def asrStr : Str := ("asr").data

/-- Track tie-break of `tryInnertubeCaption` (part_012 lines 305-307):
English with `kind !== 'asr'`, then any English, then `captionTracks[0]`
(passed as `first`). -/
def pickTrackInnertube (tracks : List CaptionTrack) (first : CaptionTrack) : CaptionTrack :=
  match tracks.find? (fun t => t.languageCode == engStr && !(t.kind == some asrStr)) with
  | some t => t
  | none =>
    match tracks.find? (fun t => t.languageCode == engStr) with
    | some t => t
    | none => first

/-- Truthiness test `!t.kind`: a missing or empty `kind`. -/
def kindFalsy (k : Option Str) : Bool :=
  match k with
  | none => true
  | some s => s == []

/-- Track tie-break of `tryScrapeCaption` (part_012 lines 373-375):
English with falsy `kind`, then any English, then `captionTracks[0]`. -/
def pickTrackScrape (tracks : List CaptionTrack) (first : CaptionTrack) : CaptionTrack :=
  match tracks.find? (fun t => t.languageCode == engStr && kindFalsy t.kind) with
  | some t => t
  | none =>
    match tracks.find? (fun t => t.languageCode == engStr) with
    | some t => t
    | none => first

/-! ### Strategy: Innertube ANDROID client (src/unnamed/part_012 lines 270-330) -/

/-- A fetched caption file: the response's `ok` flag and its `.json()`
result, which may reject. -/
structure CaptionFetch where
  ok : Bool
  json : Except JsErr (List Json3Event)

/-- Parsed player response; `title` is `videoDetails.title` with `[]` for
a missing field, `lengthSeconds` is the parsed
`videoDetails.lengthSeconds` with `none` when the field is falsy, and a
missing `captionTracks` collapses to the empty list. -/
structure PlayerResponse where
  title : Str
  lengthSeconds : Option Int
  captionTracks : List CaptionTrack
deriving DecidableEq

/-- The player fetch: `ok` flag, HTTP status, and the `.json()` result. -/
structure PlayerHttp where
  ok : Bool
  status : Nat
  json : Except JsErr PlayerResponse

/-- Environment of `tryInnertubeCaption`: the player call and, for each
possible caption URL, the caption fetch. -/
structure InnertubeEnv where
  player : Except JsErr PlayerHttp
  fetchCaption : Str → Except JsErr CaptionFetch

/-- Body of `tryInnertubeCaption` inside its try/catch. -/
def tryInnertubeCaptionBody (videoId : Str) (env : InnertubeEnv) : Except JsErr Outcome :=
  match env.player with
  | .error e => .error e
  | .ok resp =>
    if !resp.ok then .ok (mkFailure ((("Innertube HTTP ").data) ++ natStr resp.status))
    else
      match resp.json with
      | .error e => .error e
      | .ok data =>
        let title := strOr data.title ((("Video ").data) ++ videoId)
        let durationSeconds := data.lengthSeconds
        match data.captionTracks with
        | [] => .ok (mkFailure (("No caption tracks in Innertube response").data))
        | t0 :: rest =>
          let track := pickTrackInnertube (t0 :: rest) t0
          let captionUrl := track.baseUrl ++ ("&fmt=json3").data
          match env.fetchCaption captionUrl with
          | .error e => .error e
          | .ok cres =>
            if !cres.ok then .ok (mkFailure (("Innertube caption fetch failed").data))
            else
              match cres.json with
              | .error e => .error e
              | .ok captionData =>
                let segments := parseJson3Events captionData
                if segments.isEmpty then
                  .ok (mkFailure (("Innertube captions empty").data))
                else
                  .ok { success := true
                        data := some { title := title
                                       videoId := videoId
                                       language := track.languageCode
                                       isAutoGenerated := track.kind == some asrStr
                                       durationSeconds := durationSeconds
                                       segments := segments
                                       totalSegments := segments.length } }

/-- Embedding of `tryInnertubeCaption` (part_012 lines 270-330). -/
def tryInnertubeCaption (videoId : Str) (env : InnertubeEnv) : Outcome :=
  match tryInnertubeCaptionBody videoId env with
  | .ok o => o
  | .error e => mkFailure ((("Innertube error: ").data) ++ e)

/-! ### Strategy: Innertube get_transcript (src/unnamed/part_012 lines 171-267) -/

/-- One `transcriptCueRenderer`: `cueText` models
`renderer.cue?.simpleText || ''`; the millisecond offsets are the
`parseInt(... || '0')` results with `none` for a missing field. -/
structure CueRenderer where
  cueText : Str
  startOffsetMs : Option Int
  durationMs : Option Int
deriving DecidableEq

/-- One cue of a cue group. -/
structure Cue where
  transcriptCueRenderer : Option CueRenderer
deriving DecidableEq

/-- One cue group; the field holds
`group?.transcriptCueGroupRenderer?.cues` (`none` when a link is
missing). -/
structure CueGroup where
  cues : Option (List Cue)
deriving DecidableEq

/-- One `action`; the field holds the value of the navigation
`action?.updateEngagementPanelAction?.content?.transcriptRenderer?.body
?.transcriptBodyRenderer?.cueGroups` (`none` when any link is missing). -/
structure GtAction where
  cueGroups : Option (List CueGroup)
deriving DecidableEq

/-- The nested cue-group loop of `tryGetTranscript` (lines 225-243). -/
def parseCueGroups (groups : List CueGroup) : List Segment :=
  (groups.map (fun group =>
    match group.cues with
    | none => []
    | some cues =>
      (cues.map (fun cue =>
        match cue.transcriptCueRenderer with
        | none => []
        | some r =>
          if jsTrim r.cueText ≠ [] then
            [{ start := ((r.startOffsetMs.getD 0 : Int) : Rat) / 1000
               duration := ((r.durationMs.getD 0 : Int) : Rat) / 1000
               text := jsTrim r.cueText }]
          else [])).flatten)).flatten

/-- Parsed get_transcript response; a missing `actions` collapses to the
empty list. -/
structure GtResponse where
  actions : List GtAction
deriving DecidableEq

/-- The get_transcript fetch: `ok` flag, HTTP status, `.json()` result. -/
structure GtHttp where
  ok : Bool
  status : Nat
  json : Except JsErr GtResponse

/-- Environment of `tryGetTranscript`: the endpoint call and the
`getVideoTitle` result (that helper catches its own errors and returns
null). -/
structure GtEnv where
  get_transcript : Except JsErr GtHttp
  title : Option Str

/-- Body of `tryGetTranscript` inside its try/catch. -/
def tryGetTranscriptBody (videoId : Str) (env : GtEnv) : Except JsErr Outcome :=
  match env.get_transcript with
  | .error e => .error e
  | .ok resp =>
    if !resp.ok then
      .ok (mkFailure ((("get_transcript HTTP ").data) ++ natStr resp.status))
    else
      match resp.json with
      | .error e => .error e
      | .ok data =>
        if data.actions.isEmpty then
          .ok (mkFailure (("No actions in get_transcript response").data))
        else
          match data.actions.findSome? (fun a => a.cueGroups) with
          | none => .ok (mkFailure (("No cue groups found in transcript response").data))
          | some cueGroups =>
            if cueGroups.isEmpty then
              .ok (mkFailure (("No cue groups found in transcript response").data))
            else
              let segments := parseCueGroups cueGroups
              if segments.isEmpty then
                .ok (mkFailure (("Transcript cues were empty").data))
              else
                let title := strOr (env.title.getD []) ((("Video ").data) ++ videoId)
                .ok { success := true
                      data := some { title := title
                                     videoId := videoId
                                     language := engStr
                                     isAutoGenerated := true
                                     durationSeconds := none
                                     segments := segments
                                     totalSegments := segments.length } }

/-- Embedding of `tryGetTranscript` (part_012 lines 171-267). -/
def tryGetTranscript (videoId : Str) (env : GtEnv) : Outcome :=
  match tryGetTranscriptBody videoId env with
  | .ok o => o
  | .error e => mkFailure ((("get_transcript error: ").data) ++ e)

/-! ### Strategy: watch-page scrape (src/unnamed/part_012 lines 333-398) -/

/-- The data the body extracts from the fetched HTML.  The regex matching
is not a stable contract and is modeled as pre-extracted input:
`titleMatch` is the `<title>` capture after the `' - YouTube'` removal
(the code then trims it), `lengthSeconds` the parsed `"lengthSeconds"`
capture, and `captionTracks` the `JSON.parse` of the first matching
caption-track pattern, with `[]` when no pattern matched or parsing
failed. -/
structure ScrapePage where
  titleMatch : Option Str
  lengthSeconds : Option Int
  captionTracks : List CaptionTrack
deriving DecidableEq

/-- The watch-page fetch: `ok` flag, HTTP status, and the `.text()`
result together with its extraction. -/
structure ScrapeHttp where
  ok : Bool
  status : Nat
  text : Except JsErr ScrapePage

/-- Environment of `tryScrapeCaption`. -/
structure ScrapeEnv where
  page : Except JsErr ScrapeHttp
  fetchCaption : Str → Except JsErr CaptionFetch

/-- Body of `tryScrapeCaption` inside its try/catch. -/
def tryScrapeCaptionBody (videoId : Str) (env : ScrapeEnv) : Except JsErr Outcome :=
  match env.page with
  | .error e => .error e
  | .ok resp =>
    if !resp.ok then .ok (mkFailure ((("Watch page HTTP ").data) ++ natStr resp.status))
    else
      match resp.text with
      | .error e => .error e
      | .ok page =>
        let title := match page.titleMatch with
          | some t => jsTrim t
          | none => (("Video ").data) ++ videoId
        let durationSeconds := page.lengthSeconds
        match page.captionTracks with
        | [] => .ok (mkFailure (("No caption tracks in page HTML").data))
        | t0 :: rest =>
          let track := pickTrackScrape (t0 :: rest) t0
          let captionUrl := track.baseUrl ++ ("&fmt=json3").data
          match env.fetchCaption captionUrl with
          | .error e => .error e
          | .ok cres =>
            if !cres.ok then .ok (mkFailure (("Scrape caption fetch failed").data))
            else
              match cres.json with
              | .error e => .error e
              | .ok captionData =>
                let segments := parseJson3Events captionData
                if segments.isEmpty then
                  .ok (mkFailure (("Scraped captions empty").data))
                else
                  .ok { success := true
                        data := some { title := title
                                       videoId := videoId
                                       language := track.languageCode
                                       isAutoGenerated := track.kind == some asrStr
                                       durationSeconds := durationSeconds
                                       segments := segments
                                       totalSegments := segments.length } }

/-- Embedding of `tryScrapeCaption` (part_012 lines 333-398). -/
def tryScrapeCaption (videoId : Str) (env : ScrapeEnv) : Outcome :=
  match tryScrapeCaptionBody videoId env with
  | .ok o => o
  | .error e => mkFailure ((("Scrape error: ").data) ++ e)

/-! ### Strategy: AssemblyAI fallback (api/transcript.js lines 205-290; the
earlier revision src/unnamed/part_012 lines 416-501 is character-identical). -/

/-- Parsed body of a poll response: `words` models `pollData.words || []`,
`text` is `pollData.text` with `[]` for a missing field, and
`language_code` likewise. -/
structure PollData where
  status : Str
  words : List Word
  text : Str
  error : Option Str
  language_code : Str
  audio_duration : Option Rat

/-- One poll fetch: the `ok` flag and the `.json()` result. -/
structure PollHttp where
  ok : Bool
  json : Except JsErr PollData

/-- One iteration of the polling loop: the elapsed wall-clock time
`Date.now() - startTime` observed at the `while` check, and the poll call
performed after the 3-second sleep. -/
structure PollStep where
  elapsedMs : Int
  result : Except JsErr PollHttp

/-- The submit fetch: its `ok` flag, the error message the code would
build on a failed submit (`errData.error || submitRes.statusText`), and
the `.json()` result carrying `submitData.id`. -/
structure SubmitHttp where
  ok : Bool
  errMsg : Str
  json : Except JsErr Str

/-- Environment of `transcribeWithAssemblyAI`: `getYouTubeAudioUrl` and
`getVideoTitle` catch their own errors and return null, so they appear as
plain options; the submit call and each poll iteration may reject. -/
structure AssemblyEnv where
  audioUrl : Option Str
  title : Option Str
  submit : Except JsErr SubmitHttp
  steps : List PollStep

/-- The polling budget `maxWaitMs = 110000` (~110s buffer for the host's
120s limit). -/
def maxWaitMs : Int := 110000

/-- The timeout message returned with the transcript id. -/
def pollTimeoutMsg : Str :=
  ("Transcription is still processing. Longer videos may take a few minutes.").data

/-- The soft-failure outcome returned when the polling budget is
exhausted: the external job id is included so the caller can poll
out-of-band. -/
def pollTimeoutOutcome (transcriptId : Str) : Outcome :=
  { success := false, error := some pollTimeoutMsg, transcriptId := some transcriptId }

/-- The `while (Date.now() - startTime < maxWaitMs)` polling loop (lines
242-285): each `PollStep` is one iteration; the elapsed time is checked
before the poll is performed, and when it reaches the budget (or the
iteration supply ends) the loop falls through to the timeout return. -/
def pollLoop (videoId : Str) (title : Option Str) (transcriptId : Str) :
    List PollStep → Except JsErr Outcome
  | [] => .ok (pollTimeoutOutcome transcriptId)
  | step :: rest =>
    if step.elapsedMs < maxWaitMs then
      match step.result with
      | .error e => .error e
      | .ok pres =>
        if !pres.ok then .ok (mkFailure (("Failed to check transcription status").data))
        else
          match pres.json with
          | .error e => .error e
          | .ok pollData =>
            if pollData.status == ("completed").data then
              let segments := groupWordsIntoSegments pollData.words pollData.text
              let durationSec := match pollData.audio_duration with
                | some q => if q == 0 then none else some (jsRound q)
                | none => none
              .ok { success := true
                    data := some { title := strOr (title.getD []) ((("Video ").data) ++ videoId)
                                   videoId := videoId
                                   language := strOr pollData.language_code (("unknown").data)
                                   isAutoGenerated := false
                                   isSpeechToText := true
                                   durationSeconds := durationSec
                                   segments := segments
                                   totalSegments := segments.length } }
            else if pollData.status == ("error").data then
              .ok (mkFailure ((("Transcription failed: ").data) ++
                strOr (pollData.error.getD []) (("Unknown error").data)))
            else
              pollLoop videoId title transcriptId rest
    else
      .ok (pollTimeoutOutcome transcriptId)

/-- Body of `transcribeWithAssemblyAI` inside its try/catch. -/
def transcribeWithAssemblyAIBody (videoId : Str) (env : AssemblyEnv) : Except JsErr Outcome :=
  match env.audioUrl with
  | none => .ok (mkFailure (("Could not extract audio URL from YouTube").data))
  | some _ =>
    match env.submit with
    | .error e => .error e
    | .ok sub =>
      if !sub.ok then .ok (mkFailure ((("AssemblyAI submit failed: ").data) ++ sub.errMsg))
      else
        match sub.json with
        | .error e => .error e
        | .ok transcriptId => pollLoop videoId env.title transcriptId env.steps

/-- Embedding of `transcribeWithAssemblyAI` (lines 205-290). -/
def transcribeWithAssemblyAI (videoId : Str) (env : AssemblyEnv) : Outcome :=
  match transcribeWithAssemblyAIBody videoId env with
  | .ok o => o
  | .error e => mkFailure ((("AssemblyAI error: ").data) ++ e)

/-! ### Strategy: Supadata (src/unnamed/part_013 lines 176-236) -/

/-- One raw Supadata segment: `offset`/`duration` are the millisecond
JSON number fields when present, `start`/`dur` the `parseFloat` results of
the legacy string fields (`none` models NaN). -/
structure SupaSeg where
  text : Option Str
  offset : Option Rat
  duration : Option Rat
  start : Option Rat
  dur : Option Rat
  lang : Option Str
deriving DecidableEq

/-- The segment mapping of `fetchTranscript` (part_013 lines 204-210). -/
def supaSegments (raw : List SupaSeg) : List Segment :=
  (raw.filter (fun s =>
    match s.text with
    | some t => decide (jsTrim t ≠ [])
    | none => false)).map (fun s =>
    { start := ratOr0 (match s.offset with | some o => some (o / 1000) | none => s.start)
      duration := ratOr0 (match s.duration with | some d => some (d / 1000) | none => s.dur)
      text := jsTrim (s.text.getD []) })

/-- The Supadata fetch: HTTP status (checked for 202 before `ok`), the
`ok` flag, and the `.json()` result; the `content`/`segments`/`transcript`
shape-juggling of lines 195-198 is collapsed into the resulting raw
segment list. -/
structure SupaHttp where
  status : Nat
  ok : Bool
  json : Except JsErr (List SupaSeg)

/-- Environment of `fetchTranscript`: the Supadata call and the
`getVideoTitle` result (that helper catches its own errors). -/
structure SupaEnv where
  fetch : Except JsErr SupaHttp
  title : Option Str

/-- The no-captions message of part_013. -/
def noCaptionsMsg : Str := ("This video doesn\x27t have captions available.").data

/-- Body of `fetchTranscript` inside its try/catch. -/
def fetchTranscriptBody (videoUrl : Str) (platform : Str) (env : SupaEnv) :
    Except JsErr Outcome :=
  match env.fetch with
  | .error e => .error e
  | .ok resp =>
    if resp.status == 202 then .ok { success := false, async := true }
    else if !resp.ok then
      .ok (mkFailure ((("Transcript service error (").data) ++ natStr resp.status ++ (")").data))
    else
      match resp.json with
      | .error e => .error e
      | .ok rawSegments =>
        match rawSegments with
        | [] => .ok { success := false, noCaptions := true, error := some noCaptionsMsg }
        | s0 :: _ =>
          let segments := supaSegments rawSegments
          if segments.isEmpty then
            .ok { success := false, noCaptions := true, error := some noCaptionsMsg }
          else
            let title := strOr (env.title.getD []) (("Video").data)
            let lang := strOr (s0.lang.getD []) engStr
            .ok { success := true
                  data := some { title := title
                                 videoUrl := videoUrl
                                 platform := platform
                                 language := lang
                                 isAutoGenerated := false
                                 durationSeconds := none
                                 segments := segments
                                 totalSegments := segments.length } }

/-- Embedding of `fetchTranscript` (part_013 lines 176-236). -/
def fetchTranscript (videoUrl : Str) (platform : Str) (env : SupaEnv) : Outcome :=
  match fetchTranscriptBody videoUrl platform env with
  | .ok o => o
  | .error e => mkFailure ((("Transcript service error: ").data) ++ e)

/-! ### Strategy chain and the handler tail (src/unnamed/part_012 lines
151-168; api/transcript.js lines 106-141) -/

/-- Embedding of `tryYouTubeCaptions` of the multi-strategy revision
(part_012 lines 151-168): given the outcomes the three strategies would
return, the chain returns the first success, or the terminal failure.  The
second component records how many strategies were awaited: the code
returns at the first success, so strategy k runs only after strategies
1..k-1 all failed. -/
def tryYouTubeCaptions (o1 o2 o3 : Outcome) : Outcome × Nat :=
  if o1.success then (o1, 1)
  else if o2.success then (o2, 2)
  else if o3.success then (o3, 3)
  else (mkFailure (("No caption tracks found via any method").data), 3)

/-- JSON response produced by the tail of the handler (api/transcript.js
lines 106-141): a 200 with the success data spread next to a `source` tag,
or an error object.  In `err`, `transcriptId?` distinguishes an absent
field (`none`) from a field set to null (`some none`). -/
inductive HandlerResp where
  | ok (status : Nat) (data : Option TranscriptData) (source : Str)
  | err (status : Nat) (error : Option Str) (transcriptId? : Option (Option Str)) (source : Str)
deriving DecidableEq

/-- The 404 message of the handler. -/
def noCapConfiguredMsg : Str :=
  ("No captions available and speech-to-text is not configured.").data

/-- Embedding of handler steps 1-2 (api/transcript.js lines 106-141):
inputs are the caption-chain outcome, whether `ASSEMBLYAI_KEY` is
configured, and the outcome the STT fallback would return; the boolean
records whether the STT fallback was actually awaited. -/
def handlerSteps (captionResult : Outcome) (hasKey : Bool) (sttResult : Outcome) :
    HandlerResp × Bool :=
  if captionResult.success then
    (.ok 200 captionResult.data (("youtube_captions").data), false)
  else if !hasKey then
    (.err 404 (some noCapConfiguredMsg) none (("none").data), false)
  else if sttResult.success then
    (.ok 200 sttResult.data (("assemblyai").data), true)
  else
    (.err 500 sttResult.error (some (jsOrNull sttResult.transcriptId))
      (("assemblyai_failed").data), true)

/-! ### Concrete inputs used by witnesses and counterexamples -/

/-- A sample video id. -/
def vidShort : Str := ("v").data

/-- A sample thrown-error message. -/
def boomMsg : Str := ("boom").data

/-- A sample title. -/
def titleW : Str := ("t").data

/-- A sample caption text. -/
def hiStr : Str := ("hi").data

/-- A second sample word, half a second after `wordW`. -/
def word2W : Word := { start := 1000, «end» := 1500, text := hiStr }

/-- A sample manually created English track. -/
def manualTrack : CaptionTrack :=
  { baseUrl := ("u1").data, languageCode := engStr, kind := none }

/-- A sample auto-generated English track. -/
def asrTrack : CaptionTrack :=
  { baseUrl := ("u2").data, languageCode := engStr, kind := some asrStr }

/-- A json3 event with one non-empty segment. -/
def okEvent : Json3Event :=
  { tStartMs := some 1000, dDurationMs := some 2000, segs := [{ utf8 := some hiStr }] }

/-- A json3 event with a negative start offset, as a hostile or buggy
upstream could send. -/
def negEvent : Json3Event :=
  { tStartMs := some (-1000), dDurationMs := some 0, segs := [{ utf8 := some hiStr }] }

/-- Extractor environment whose awaited call rejects. -/
def extractorErrEnv : ExtractorEnv := { getVideoDetails := .error boomMsg }

/-- Extractor environment that succeeds with one subtitle. -/
def extractorOkEnv : ExtractorEnv :=
  { getVideoDetails := .ok (some
      { title := titleW,
        subtitles := [{ start := some 1, dur := some 2, text := hiStr }] }) }

/-- get_transcript environment whose awaited call rejects. -/
def gtErrEnv : GtEnv := { get_transcript := .error boomMsg, title := none }

/-- A sample cue. -/
def cueW : Cue :=
  { transcriptCueRenderer := some
      { cueText := hiStr, startOffsetMs := some 0, durationMs := some 1000 } }

/-- get_transcript environment that succeeds with one cue. -/
def gtOkEnv : GtEnv :=
  { get_transcript := .ok
      { ok := true, status := 200,
        json := .ok { actions := [{ cueGroups := some [{ cues := some [cueW] }] }] } },
    title := some titleW }

/-- Innertube environment whose awaited call rejects. -/
def innertubeErrEnv : InnertubeEnv :=
  { player := .error boomMsg, fetchCaption := fun _ => .error boomMsg }

/-- Innertube environment that succeeds with an ordinary event. -/
def innertubeOkEnv : InnertubeEnv :=
  { player := .ok
      { ok := true, status := 200,
        json := .ok
          { title := titleW, lengthSeconds := some 10, captionTracks := [manualTrack] } },
    fetchCaption := fun _ => .ok { ok := true, json := .ok [okEvent] } }

/-- Innertube environment whose caption fetch returns the negative-offset
event; the strategy still reports success on it. -/
def innertubeNegEnv : InnertubeEnv :=
  { player := .ok
      { ok := true, status := 200,
        json := .ok
          { title := titleW, lengthSeconds := none, captionTracks := [manualTrack] } },
    fetchCaption := fun _ => .ok { ok := true, json := .ok [negEvent] } }

/-- Scrape environment whose awaited call rejects. -/
def scrapeErrEnv : ScrapeEnv :=
  { page := .error boomMsg, fetchCaption := fun _ => .error boomMsg }

/-- Scrape environment that succeeds with an ordinary event. -/
def scrapeOkEnv : ScrapeEnv :=
  { page := .ok
      { ok := true, status := 200,
        text := .ok
          { titleMatch := some titleW, lengthSeconds := some 10,
            captionTracks := [manualTrack] } },
    fetchCaption := fun _ => .ok { ok := true, json := .ok [okEvent] } }

/-- AssemblyAI environment whose submit call rejects. -/
def assemblyErrEnv : AssemblyEnv :=
  { audioUrl := some (("a").data), title := none, submit := .error boomMsg, steps := [] }

/-- A sample word with millisecond timestamps. -/
def wordW : Word := { start := 0, «end» := 500, text := hiStr }

/-- A completed poll body carrying one word. -/
def completedPoll : PollData :=
  { status := ("completed").data, words := [wordW], text := hiStr, error := none
    language_code := engStr, audio_duration := some 10 }

/-- A still-queued poll body. -/
def queuedPoll : PollData :=
  { status := ("queued").data, words := [], text := [], error := none
    language_code := [], audio_duration := none }

/-- AssemblyAI environment that completes on the first poll. -/
def assemblyOkEnv : AssemblyEnv :=
  { audioUrl := some (("a").data), title := some titleW
    submit := .ok { ok := true, errMsg := [], json := .ok (("id1").data) }
    steps := [{ elapsedMs := 0, result := .ok { ok := true, json := .ok completedPoll } }] }

/-- AssemblyAI environment that is still queued when the budget runs out:
the second iteration begins at the 110-second mark, so its poll is never
performed. -/
def assemblyTimeoutEnv : AssemblyEnv :=
  { audioUrl := some (("a").data), title := some titleW
    submit := .ok { ok := true, errMsg := [], json := .ok (("id1").data) }
    steps := [{ elapsedMs := 0, result := .ok { ok := true, json := .ok queuedPoll } },
              { elapsedMs := 110000, result := .error boomMsg }] }

/-- Supadata environment whose awaited call rejects. -/
def supaErrEnv : SupaEnv := { fetch := .error boomMsg, title := none }

/-- Supadata environment that succeeds with one raw segment. -/
def supaOkEnv : SupaEnv :=
  { fetch := .ok
      { status := 200, ok := true,
        json := .ok
          [{ text := some hiStr, offset := some 1000, duration := some 2000,
             start := none, dur := none, lang := some engStr }] },
    title := some titleW }

/-- A raw Supadata segment with a fractional offset. -/
def supaRawW : SupaSeg :=
  { text := some hiStr, offset := some 3000, duration := some 2000
    start := none, dur := none, lang := none }

/-- The outcome `tryInnertubeCaption` produces on `innertubeNegEnv`: a
success whose single segment has a negative start. -/
def negOutcomeW : Outcome :=
  { success := true
    data := some { title := titleW, videoId := vidShort, language := engStr
                   isAutoGenerated := false, durationSeconds := none
                   segments := [{ start := (-1000 : Rat) / 1000
                                  duration := (0 : Rat) / 1000, text := hiStr }]
                   totalSegments := 1 } }

/-- A sample successful outcome. -/
def okOutcomeW : Outcome := { success := true }

/-- A sample failed outcome. -/
def failOutcomeW : Outcome := mkFailure boomMsg

/-- The transcript data produced by `tryCaptionExtractor` on
`extractorOkEnv`. -/
def extractorDataW : TranscriptData :=
  { title := titleW, videoId := vidShort, language := ("en").data
    isAutoGenerated := false, durationSeconds := none
    segments := [{ start := 1, duration := 2, text := hiStr }], totalSegments := 1 }

/-- The transcript data produced by `tryGetTranscript` on `gtOkEnv`. -/
def gtDataW : TranscriptData :=
  { title := titleW, videoId := vidShort, language := engStr
    isAutoGenerated := true, durationSeconds := none
    segments := [{ start := (((0 : Int) : Rat)) / 1000, duration := (((1000 : Int) : Rat)) / 1000,
                   text := hiStr }]
    totalSegments := 1 }

/-- The transcript data produced by `tryInnertubeCaption` on
`innertubeOkEnv`. -/
def innertubeDataW : TranscriptData :=
  { title := titleW, videoId := vidShort, language := engStr
    isAutoGenerated := false, durationSeconds := some 10
    segments := [{ start := (1000 : Rat) / 1000, duration := (2000 : Rat) / 1000,
                   text := hiStr }]
    totalSegments := 1 }

/-- The transcript data produced by `tryScrapeCaption` on `scrapeOkEnv`. -/
def scrapeDataW : TranscriptData :=
  { title := titleW, videoId := vidShort, language := engStr
    isAutoGenerated := false, durationSeconds := some 10
    segments := [{ start := (1000 : Rat) / 1000, duration := (2000 : Rat) / 1000,
                   text := hiStr }]
    totalSegments := 1 }

/-- The transcript data produced by `transcribeWithAssemblyAI` on
`assemblyOkEnv`. -/
def assemblyDataW : TranscriptData :=
  { title := titleW, videoId := vidShort, language := engStr
    isAutoGenerated := false, isSpeechToText := true, durationSeconds := some (jsRound 10)
    segments := [finalize (addWord (newSeg wordW) wordW)], totalSegments := 1 }

/-- The transcript data produced by `fetchTranscript` on `supaOkEnv`. -/
def supaDataW : TranscriptData :=
  { title := titleW, videoUrl := ("u").data, platform := ("youtube").data
    language := engStr, isAutoGenerated := false, durationSeconds := none
    segments := [{ start := (1000 : Rat) / 1000, duration := (2000 : Rat) / 1000,
                   text := hiStr }]
    totalSegments := 1 }

/-! ### Theorems -/

/-- C9: with an empty (or missing) word list, `groupWordsIntoSegments`
returns the single segment `{start: 0, duration: 0, text: fullText}` with
the text taken verbatim when `fullText` is a non-empty string, and the
empty list otherwise. -/
theorem groupWords_empty_words (fullText : Str) :
    groupWordsIntoSegments [] fullText =
      (if fullText ≠ [] then [{ start := 0, duration := 0, text := fullText }] else []) := by
  simp [groupWordsIntoSegments]

/-- Flags produced by a run of requests that all fall inside the stored
window: with `k` requests already counted, request `k + i + 1` is limited
exactly when its total index exceeds `RATE_LIMIT`. -/
theorem runLimiter_flag (ts : List Int) (k : Nat) (R : Int)
    (h : ∀ t ∈ ts, t ≤ R) (i : Nat) (hi : i < ts.length) :
    (runLimiter ts (some { count := k, resetAt := R })).1.getD i false =
      decide (RATE_LIMIT < k + i + 1) := by
  induction ts generalizing k i with
  | nil => simp at hi
  | cons t ts ih =>
    have ht : ¬ (R < t) := not_lt.mpr (h t (by simp))
    cases i with
    | zero =>
      simp [runLimiter, isRateLimited, ht]
    | succ i =>
      have := ih (fun u hu => h u (by simp [hu])) (k := k + 1) (i := i)
        (by simpa using Nat.lt_of_succ_lt_succ hi)
      simpa [runLimiter, isRateLimited, ht, Nat.add_assoc, Nat.add_comm, Nat.add_left_comm]
        using this

/-- State after a run of requests that all fall inside the stored window:
the count advances by the number of requests and the reset time is kept. -/
theorem runLimiter_state (ts : List Int) (k : Nat) (R : Int)
    (h : ∀ t ∈ ts, t ≤ R) :
    (runLimiter ts (some { count := k, resetAt := R })).2 =
        some { count := k + ts.length, resetAt := R } ∧
      (runLimiter ts (some { count := k, resetAt := R })).1.length = ts.length := by
  induction ts generalizing k with
  | nil => simp [runLimiter]
  | cons t ts ih =>
    have ht : ¬ (R < t) := not_lt.mpr (h t (by simp))
    have := ih (fun u hu => h u (by simp [hu])) (k := k + 1)
    simp [runLimiter, isRateLimited, ht, this.1, this.2, Nat.add_assoc, Nat.add_comm,
      Nat.add_left_comm]

/-- C4: per-IP rate limiter with `RATE_LIMIT = 10` and a 60-second window.
Starting from an absent key, a run of requests whose times all lie inside
the window opened by the first request yields: request `i + 1` accepted
exactly when `i + 1 ≤ 10` (so the first ten are accepted and the eleventh
and later are rejected), and the stored entry counts every request of the
window.  Moreover the first request strictly after a stored entry's reset
time is accepted and starts a fresh window. -/
theorem rate_limiter_window (t1 : Int) (ts : List Int)
    (h : ∀ t ∈ ts, t ≤ t1 + RATE_WINDOW) :
    ((runLimiter (t1 :: ts) none).1.getD 0 false = false ∧
      ∀ i, i ≤ ts.length →
        (runLimiter (t1 :: ts) none).1.getD i false = decide (RATE_LIMIT < i + 1)) ∧
    (runLimiter (t1 :: ts) none).1.length = ts.length + 1 ∧
    (runLimiter (t1 :: ts) none).2 =
      some { count := ts.length + 1, resetAt := t1 + RATE_WINDOW } ∧
    ∀ (e : RateEntry) (t2 : Int), e.resetAt < t2 →
      isRateLimited t2 (some e) = (false, { count := 1, resetAt := t2 + RATE_WINDOW }) := by
  have hstate := runLimiter_state ts 1 (t1 + RATE_WINDOW) h
  refine ⟨⟨?_, ?_⟩, ?_, ?_, ?_⟩
  · simp [runLimiter, isRateLimited]
  · intro i hi
    cases i with
    | zero => simp [runLimiter, isRateLimited, RATE_LIMIT]
    | succ i =>
      have hflag := runLimiter_flag ts 1 (t1 + RATE_WINDOW) h i (by omega)
      simpa [runLimiter, isRateLimited, Nat.add_comm] using hflag
  · simp [runLimiter, isRateLimited, hstate.2]
  · simpa [runLimiter, isRateLimited, Nat.add_comm] using hstate.1
  · intro e t2 h2
    simp [isRateLimited, h2]

/-- Witness for C4 at a concrete run: twelve requests at time 0 from the
same fresh key; the tenth is accepted, the eleventh and twelfth are
rejected, and a later request past the reset time is accepted afresh. -/
theorem rate_limiter_window_witness :
    (runLimiter ((0 : Int) :: List.replicate 11 (0 : Int)) none).1.getD 9 false = false ∧
      (runLimiter ((0 : Int) :: List.replicate 11 (0 : Int)) none).1.getD 10 false = true ∧
      isRateLimited 60001 (some { count := 12, resetAt := 60000 }) =
        (false, { count := 1, resetAt := 120001 }) := by
  have h := rate_limiter_window 0 (List.replicate 11 0)
    (by intro t ht; simp_all [RATE_WINDOW])
  refine ⟨?_, ?_, ?_⟩
  · have := h.1.2 9 (by simp)
    simpa [RATE_LIMIT] using this
  · have := h.1.2 10 (by simp)
    simpa [RATE_LIMIT] using this
  · have := h.2.2.2 { count := 12, resetAt := 60000 } 60001 (by norm_num)
    simpa [RATE_WINDOW] using this

/-- C2: chain invariant of the orchestrator.  For the three-strategy chain
of the multi-strategy revision: strategy 2 is attempted only if strategy 1
failed, strategy 3 only if strategies 1 and 2 failed, and a success is
returned immediately with no later strategy attempted.  For the handler:
a successful caption chain is returned at once without awaiting the STT
fallback, and the fallback is awaited only after the caption chain
failed. -/
theorem strategy_chain_invariant (o1 o2 o3 cap stt : Outcome) (hasKey : Bool) :
    (2 ≤ (tryYouTubeCaptions o1 o2 o3).2 → o1.success = false) ∧
    (3 ≤ (tryYouTubeCaptions o1 o2 o3).2 → o1.success = false ∧ o2.success = false) ∧
    (o1.success = true → tryYouTubeCaptions o1 o2 o3 = (o1, 1)) ∧
    (o1.success = false → o2.success = true → tryYouTubeCaptions o1 o2 o3 = (o2, 2)) ∧
    (o1.success = false → o2.success = false → o3.success = true →
      tryYouTubeCaptions o1 o2 o3 = (o3, 3)) ∧
    (cap.success = true →
      handlerSteps cap hasKey stt = (.ok 200 cap.data (("youtube_captions").data), false)) ∧
    ((handlerSteps cap hasKey stt).2 = true → cap.success = false) := by
  cases h1 : o1.success <;> cases h2 : o2.success <;> cases h3 : o3.success <;>
    cases hc : cap.success <;> cases hs : stt.success <;> cases hk : hasKey <;>
      simp_all [tryYouTubeCaptions, handlerSteps]

/-- Witness for C2: with strategy 1 failing and strategy 2 succeeding, the
chain returns strategy 2's outcome after exactly two attempts, and a
successful caption result makes the handler answer without awaiting the
fallback. -/
theorem strategy_chain_invariant_witness :
    tryYouTubeCaptions failOutcomeW okOutcomeW failOutcomeW = (okOutcomeW, 2) ∧
      handlerSteps okOutcomeW true failOutcomeW =
        (.ok 200 okOutcomeW.data (("youtube_captions").data), false) := by
  have h := strategy_chain_invariant failOutcomeW okOutcomeW failOutcomeW
    okOutcomeW failOutcomeW true
  exact ⟨h.2.2.2.1 rfl rfl, h.2.2.2.2.2.1 rfl⟩

/-- C5: every strategy function catches a JavaScript exception raised in
its body and returns a structured failure outcome (`success = false` with
an error string) instead of letting it propagate; hence the orchestrator
and the handler only ever see `Outcome` values. -/
theorem strategies_catch_errors :
    (∀ (vid : Str) (env : ExtractorEnv) (e : JsErr),
      tryCaptionExtractorBody vid env = .error e →
        tryCaptionExtractor vid env = mkFailure ((("Extractor error: ").data) ++ e)) ∧
    (∀ (vid : Str) (env : GtEnv) (e : JsErr),
      tryGetTranscriptBody vid env = .error e →
        tryGetTranscript vid env = mkFailure ((("get_transcript error: ").data) ++ e)) ∧
    (∀ (vid : Str) (env : InnertubeEnv) (e : JsErr),
      tryInnertubeCaptionBody vid env = .error e →
        tryInnertubeCaption vid env = mkFailure ((("Innertube error: ").data) ++ e)) ∧
    (∀ (vid : Str) (env : ScrapeEnv) (e : JsErr),
      tryScrapeCaptionBody vid env = .error e →
        tryScrapeCaption vid env = mkFailure ((("Scrape error: ").data) ++ e)) ∧
    (∀ (vid : Str) (env : AssemblyEnv) (e : JsErr),
      transcribeWithAssemblyAIBody vid env = .error e →
        transcribeWithAssemblyAI vid env = mkFailure ((("AssemblyAI error: ").data) ++ e)) ∧
    (∀ (u p : Str) (env : SupaEnv) (e : JsErr),
      fetchTranscriptBody u p env = .error e →
        fetchTranscript u p env = mkFailure ((("Transcript service error: ").data) ++ e)) := by
  refine ⟨?_, ?_, ?_, ?_, ?_, ?_⟩
  · intro vid env e h; simp [tryCaptionExtractor, h]
  · intro vid env e h; simp [tryGetTranscript, h]
  · intro vid env e h; simp [tryInnertubeCaption, h]
  · intro vid env e h; simp [tryScrapeCaption, h]
  · intro vid env e h; simp [transcribeWithAssemblyAI, h]
  · intro u p env e h; simp [fetchTranscript, h]

/-- Witness for C5: each of the six strategies, on an environment whose
first awaited call rejects with message `boom`, returns the structured
failure with its own prefix. -/
theorem strategies_catch_errors_witness :
    tryCaptionExtractor vidShort extractorErrEnv =
        mkFailure ((("Extractor error: ").data) ++ boomMsg) ∧
      tryGetTranscript vidShort gtErrEnv =
        mkFailure ((("get_transcript error: ").data) ++ boomMsg) ∧
      tryInnertubeCaption vidShort innertubeErrEnv =
        mkFailure ((("Innertube error: ").data) ++ boomMsg) ∧
      tryScrapeCaption vidShort scrapeErrEnv =
        mkFailure ((("Scrape error: ").data) ++ boomMsg) ∧
      transcribeWithAssemblyAI vidShort assemblyErrEnv =
        mkFailure ((("AssemblyAI error: ").data) ++ boomMsg) ∧
      fetchTranscript vidShort vidShort supaErrEnv =
        mkFailure ((("Transcript service error: ").data) ++ boomMsg) := by
  have h := strategies_catch_errors
  exact ⟨h.1 vidShort extractorErrEnv boomMsg rfl,
    h.2.1 vidShort gtErrEnv boomMsg rfl,
    h.2.2.1 vidShort innertubeErrEnv boomMsg rfl,
    h.2.2.2.1 vidShort scrapeErrEnv boomMsg rfl,
    h.2.2.2.2.1 vidShort assemblyErrEnv boomMsg rfl,
    h.2.2.2.2.2 vidShort vidShort supaErrEnv boomMsg rfl⟩

/-- C6: on a caption-track list holding one manually created English track
and one auto-generated (`kind = 'asr'`) English track, the tie-break of
both the Innertube strategy and the page-scrape strategy selects the
manual track, in either order. -/
theorem track_selection_prefers_manual (m a : CaptionTrack)
    (hm1 : m.languageCode = engStr) (hm2 : kindFalsy m.kind = true)
    (ha1 : a.languageCode = engStr) (ha2 : a.kind = some asrStr) :
    pickTrackInnertube [m, a] m = m ∧ pickTrackInnertube [a, m] a = m ∧
      pickTrackScrape [m, a] m = m ∧ pickTrackScrape [a, m] a = m := by
  have hmk : (m.kind == some asrStr) = false := by
    cases hk : m.kind with
    | none => rfl
    | some s =>
      have hs : s = [] := by simpa [kindFalsy, hk] using hm2
      subst hs
      rfl
  have hasr : kindFalsy (some asrStr) = false := rfl
  refine ⟨?_, ?_, ?_, ?_⟩ <;>
    simp [pickTrackInnertube, pickTrackScrape, List.find?, hm1, hm2, hmk, hasr, ha1, ha2]

/-- Witness for C6 on concrete tracks: the manual English track is picked
over the `asr` English track by both pickers, in both orders. -/
theorem track_selection_prefers_manual_witness :
    pickTrackInnertube [manualTrack, asrTrack] manualTrack = manualTrack ∧
      pickTrackInnertube [asrTrack, manualTrack] asrTrack = manualTrack ∧
      pickTrackScrape [manualTrack, asrTrack] manualTrack = manualTrack ∧
      pickTrackScrape [asrTrack, manualTrack] asrTrack = manualTrack :=
  track_selection_prefers_manual manualTrack asrTrack rfl rfl rfl rfl

/-- Shape of any non-throwing result of the polling loop: a failure
always carries an error message, and a success always carries data whose
`totalSegments` equals the length of its segment list. -/
theorem pollLoop_ok_shape (vid : Str) (t : Option Str) (id : Str) :
    ∀ (steps : List PollStep) (o : Outcome), pollLoop vid t id steps = .ok o →
      (o.success = false ∧ o.error.isSome = true) ∨
        (o.success = true ∧ ∃ d, o.data = some d ∧ d.totalSegments = d.segments.length) := by
  intro steps
  induction steps with
  | nil =>
    intro o h
    simp only [pollLoop, Except.ok.injEq] at h
    subst h
    exact Or.inl (by simp [pollTimeoutOutcome])
  | cons s rest ih =>
    intro o h
    simp only [pollLoop] at h
    try dsimp only at h
    repeat' split at h
    all_goals first
      | (exact ih o h)
      | ((injection h with h2) <;> (subst h2; simp [mkFailure, pollTimeoutOutcome]))
      | (injection h)

/-- Shape of any non-throwing result of the AssemblyAI strategy body. -/
theorem transcribeBody_ok_shape (vid : Str) (env : AssemblyEnv) (o : Outcome)
    (h : transcribeWithAssemblyAIBody vid env = .ok o) :
    (o.success = false ∧ o.error.isSome = true) ∨
      (o.success = true ∧ ∃ d, o.data = some d ∧ d.totalSegments = d.segments.length) := by
  unfold transcribeWithAssemblyAIBody at h
  try dsimp only at h
  repeat' split at h
  all_goals first
    | (exact pollLoop_ok_shape vid env.title _ env.steps o h)
    | ((injection h with h2) <;> (subst h2; simp [mkFailure]))
    | (injection h)

/-- C7: terminal failures of the handler.  When the caption chain failed
and speech-to-text is not configured the handler answers 404 with source
`none` (and no transcriptId field); when the STT fallback failed it
answers 500 with source `assemblyai_failed`, the fallback's error message
and a `transcriptId` field holding the external job id or null; and a
failed STT fallback always carries a human-readable error message. -/
theorem handler_terminal_failures (cap stt : Outcome) (hasKey : Bool) :
    (cap.success = false → hasKey = false →
      handlerSteps cap hasKey stt =
        (.err 404 (some noCapConfiguredMsg) none (("none").data), false)) ∧
    (cap.success = false → hasKey = true → stt.success = false →
      handlerSteps cap hasKey stt =
        (.err 500 stt.error (some (jsOrNull stt.transcriptId))
          (("assemblyai_failed").data), true)) ∧
    (∀ (vid : Str) (env : AssemblyEnv),
      (transcribeWithAssemblyAI vid env).success = false →
        (transcribeWithAssemblyAI vid env).error.isSome = true) := by
  refine ⟨?_, ?_, ?_⟩
  · intro h1 h2
    simp [handlerSteps, h1, h2]
  · intro h1 h2 h3
    simp [handlerSteps, h1, h2, h3]
  · intro vid env hs
    unfold transcribeWithAssemblyAI at hs ⊢
    cases hb : transcribeWithAssemblyAIBody vid env with
    | error e => simp [mkFailure]
    | ok o =>
      rw [hb] at hs
      dsimp only at hs ⊢
      rcases transcribeBody_ok_shape vid env o hb with ⟨_, he⟩ | ⟨ht, _⟩
      · exact he
      · rw [hs] at ht
        exact Bool.noConfusion ht

/-- Witness for C7 at concrete outcomes: a failed caption chain with no
key yields the 404 response with source `none`; with a key and a failed
fallback carrying a transcript id, the 500 response carries the id; and
the timed-out concrete STT run carries an error message. -/
theorem handler_terminal_failures_witness :
    handlerSteps failOutcomeW false okOutcomeW =
        (.err 404 (some noCapConfiguredMsg) none (("none").data), false) ∧
      handlerSteps failOutcomeW true failOutcomeW =
        (.err 500 failOutcomeW.error (some (jsOrNull failOutcomeW.transcriptId))
          (("assemblyai_failed").data), true) ∧
      (transcribeWithAssemblyAI vidShort assemblyTimeoutEnv).error.isSome = true := by
  have h := handler_terminal_failures failOutcomeW okOutcomeW false
  have h2 := handler_terminal_failures failOutcomeW failOutcomeW true
  exact ⟨h.1 rfl rfl, h2.2.1 rfl rfl rfl,
    h2.2.2 vidShort assemblyTimeoutEnv (by decide)⟩

/-- Data shape of any non-throwing result of the caption-extractor body. -/
theorem extractorBody_data_shape (vid : Str) (env : ExtractorEnv) (o : Outcome)
    (h : tryCaptionExtractorBody vid env = .ok o) :
    ∀ d, o.data = some d → d.totalSegments = d.segments.length := by
  unfold tryCaptionExtractorBody at h
  try dsimp only at h
  repeat' split at h
  all_goals first
    | ((injection h with h2) <;>
        (subst h2; intro d hd;
         first
           | exact Option.noConfusion hd
           | (injection hd with h3; subst h3; rfl)))
    | (injection h)

/-- Data shape of any non-throwing result of the get_transcript body. -/
theorem gtBody_data_shape (vid : Str) (env : GtEnv) (o : Outcome)
    (h : tryGetTranscriptBody vid env = .ok o) :
    ∀ d, o.data = some d → d.totalSegments = d.segments.length := by
  unfold tryGetTranscriptBody at h
  try dsimp only at h
  repeat' split at h
  all_goals first
    | ((injection h with h2) <;>
        (subst h2; intro d hd;
         first
           | exact Option.noConfusion hd
           | (injection hd with h3; subst h3; rfl)))
    | (injection h)

/-- Data shape of any non-throwing result of the Innertube body. -/
theorem innertubeBody_data_shape (vid : Str) (env : InnertubeEnv) (o : Outcome)
    (h : tryInnertubeCaptionBody vid env = .ok o) :
    ∀ d, o.data = some d → d.totalSegments = d.segments.length := by
  unfold tryInnertubeCaptionBody at h
  try dsimp only at h
  repeat' split at h
  all_goals first
    | ((injection h with h2) <;>
        (subst h2; intro d hd;
         first
           | exact Option.noConfusion hd
           | (injection hd with h3; subst h3; rfl)))
    | (injection h)

/-- Data shape of any non-throwing result of the page-scrape body. -/
theorem scrapeBody_data_shape (vid : Str) (env : ScrapeEnv) (o : Outcome)
    (h : tryScrapeCaptionBody vid env = .ok o) :
    ∀ d, o.data = some d → d.totalSegments = d.segments.length := by
  unfold tryScrapeCaptionBody at h
  try dsimp only at h
  repeat' split at h
  all_goals first
    | ((injection h with h2) <;>
        (subst h2; intro d hd;
         first
           | exact Option.noConfusion hd
           | (injection hd with h3; subst h3; rfl)))
    | (injection h)

/-- Data shape of any non-throwing result of the Supadata body. -/
theorem supaBody_data_shape (u p : Str) (env : SupaEnv) (o : Outcome)
    (h : fetchTranscriptBody u p env = .ok o) :
    ∀ d, o.data = some d → d.totalSegments = d.segments.length := by
  unfold fetchTranscriptBody at h
  try dsimp only at h
  repeat' split at h
  all_goals first
    | ((injection h with h2) <;>
        (subst h2; intro d hd;
         first
           | exact Option.noConfusion hd
           | (injection hd with h3; subst h3; rfl)))
    | (injection h)

/-- C10: in every success result constructed by any of the six strategies,
the `totalSegments` field equals the length of the `segments` list. -/
theorem totalSegments_eq_length :
    (∀ (vid : Str) (env : ExtractorEnv) (d : TranscriptData),
      (tryCaptionExtractor vid env).success = true →
        (tryCaptionExtractor vid env).data = some d →
          d.totalSegments = d.segments.length) ∧
    (∀ (vid : Str) (env : GtEnv) (d : TranscriptData),
      (tryGetTranscript vid env).success = true →
        (tryGetTranscript vid env).data = some d →
          d.totalSegments = d.segments.length) ∧
    (∀ (vid : Str) (env : InnertubeEnv) (d : TranscriptData),
      (tryInnertubeCaption vid env).success = true →
        (tryInnertubeCaption vid env).data = some d →
          d.totalSegments = d.segments.length) ∧
    (∀ (vid : Str) (env : ScrapeEnv) (d : TranscriptData),
      (tryScrapeCaption vid env).success = true →
        (tryScrapeCaption vid env).data = some d →
          d.totalSegments = d.segments.length) ∧
    (∀ (vid : Str) (env : AssemblyEnv) (d : TranscriptData),
      (transcribeWithAssemblyAI vid env).success = true →
        (transcribeWithAssemblyAI vid env).data = some d →
          d.totalSegments = d.segments.length) ∧
    (∀ (u p : Str) (env : SupaEnv) (d : TranscriptData),
      (fetchTranscript u p env).success = true →
        (fetchTranscript u p env).data = some d →
          d.totalSegments = d.segments.length) := by
  refine ⟨?_, ?_, ?_, ?_, ?_, ?_⟩
  · intro vid env d _ hd
    unfold tryCaptionExtractor at hd
    cases hb : tryCaptionExtractorBody vid env with
    | error e => rw [hb] at hd; simp [mkFailure] at hd
    | ok o => rw [hb] at hd; exact extractorBody_data_shape vid env o hb d hd
  · intro vid env d _ hd
    unfold tryGetTranscript at hd
    cases hb : tryGetTranscriptBody vid env with
    | error e => rw [hb] at hd; simp [mkFailure] at hd
    | ok o => rw [hb] at hd; exact gtBody_data_shape vid env o hb d hd
  · intro vid env d _ hd
    unfold tryInnertubeCaption at hd
    cases hb : tryInnertubeCaptionBody vid env with
    | error e => rw [hb] at hd; simp [mkFailure] at hd
    | ok o => rw [hb] at hd; exact innertubeBody_data_shape vid env o hb d hd
  · intro vid env d _ hd
    unfold tryScrapeCaption at hd
    cases hb : tryScrapeCaptionBody vid env with
    | error e => rw [hb] at hd; simp [mkFailure] at hd
    | ok o => rw [hb] at hd; exact scrapeBody_data_shape vid env o hb d hd
  · intro vid env d hs hd
    unfold transcribeWithAssemblyAI at hs hd
    cases hb : transcribeWithAssemblyAIBody vid env with
    | error e => rw [hb] at hd; simp [mkFailure] at hd
    | ok o =>
      rw [hb] at hs hd
      rcases transcribeBody_ok_shape vid env o hb with ⟨hf, _⟩ | ⟨_, d2, hd2, ht⟩
      · rw [hs] at hf
        exact Bool.noConfusion hf
      · rw [hd2] at hd
        injection hd with h2
        rw [← h2]
        exact ht
  · intro u p env d _ hd
    unfold fetchTranscript at hd
    cases hb : fetchTranscriptBody u p env with
    | error e => rw [hb] at hd; simp [mkFailure] at hd
    | ok o => rw [hb] at hd; exact supaBody_data_shape u p env o hb d hd

/-- Witness for C10: each of the six strategies, on a concrete environment
on which it succeeds, yields exactly the stated data, and the theorem
applied at that input gives `totalSegments = segments.length`. -/
theorem totalSegments_eq_length_witness :
    ((tryCaptionExtractor vidShort extractorOkEnv).data = some extractorDataW ∧
      extractorDataW.totalSegments = extractorDataW.segments.length) ∧
    ((tryGetTranscript vidShort gtOkEnv).data = some gtDataW ∧
      gtDataW.totalSegments = gtDataW.segments.length) ∧
    ((tryInnertubeCaption vidShort innertubeOkEnv).data = some innertubeDataW ∧
      innertubeDataW.totalSegments = innertubeDataW.segments.length) ∧
    ((tryScrapeCaption vidShort scrapeOkEnv).data = some scrapeDataW ∧
      scrapeDataW.totalSegments = scrapeDataW.segments.length) ∧
    ((transcribeWithAssemblyAI vidShort assemblyOkEnv).data = some assemblyDataW ∧
      assemblyDataW.totalSegments = assemblyDataW.segments.length) ∧
    ((fetchTranscript (("u").data) (("youtube").data) supaOkEnv).data = some supaDataW ∧
      supaDataW.totalSegments = supaDataW.segments.length) := by
  have h := totalSegments_eq_length
  refine ⟨⟨rfl, ?_⟩, ⟨rfl, ?_⟩, ⟨rfl, ?_⟩, ⟨rfl, ?_⟩, ⟨rfl, ?_⟩, ⟨rfl, ?_⟩⟩
  · exact h.1 vidShort extractorOkEnv extractorDataW rfl rfl
  · exact h.2.1 vidShort gtOkEnv gtDataW rfl rfl
  · exact h.2.2.1 vidShort innertubeOkEnv innertubeDataW rfl rfl
  · exact h.2.2.2.1 vidShort scrapeOkEnv scrapeDataW rfl rfl
  · exact h.2.2.2.2.1 vidShort assemblyOkEnv assemblyDataW rfl rfl
  · exact h.2.2.2.2.2 (("u").data) (("youtube").data) supaOkEnv supaDataW rfl rfl

/-- C8: the STT polling loop runs under the 110-second cumulative budget,
checking the elapsed wall-clock time before each poll.  Once the audio URL
was found and the submit call succeeded, the strategy's answer is exactly
the loop's answer; if every iteration before the `k`-th saw a non-terminal
status (not `completed`, not `error`) under budget and iteration `k`
begins at or past the budget, the loop returns the soft-failure outcome
without performing iteration `k`'s poll; and that outcome has
`success = false`, carries the external job id for out-of-band polling,
and the processing message. -/
theorem stt_poll_budget :
    (∀ (vid : Str) (env : AssemblyEnv) (u : Str) (sub : SubmitHttp) (id : Str),
      env.audioUrl = some u → env.submit = .ok sub → sub.ok = true → sub.json = .ok id →
        transcribeWithAssemblyAI vid env =
          (match pollLoop vid env.title id env.steps with
            | .ok o => o
            | .error e => mkFailure ((("AssemblyAI error: ").data) ++ e))) ∧
    (∀ (vid : Str) (t : Option Str) (id : Str) (pre : List PollStep) (s : PollStep)
        (rest : List PollStep),
      (∀ q ∈ pre, q.elapsedMs < maxWaitMs ∧
        ∃ pres pd, q.result = .ok pres ∧ pres.ok = true ∧ pres.json = .ok pd ∧
          pd.status ≠ ("completed").data ∧ pd.status ≠ ("error").data) →
      maxWaitMs ≤ s.elapsedMs →
      pollLoop vid t id (pre ++ s :: rest) = .ok (pollTimeoutOutcome id)) ∧
    (∀ id : Str, (pollTimeoutOutcome id).success = false ∧
      (pollTimeoutOutcome id).transcriptId = some id ∧
      (pollTimeoutOutcome id).error = some pollTimeoutMsg) := by
  refine ⟨?_, ?_, ?_⟩
  · intro vid env u sub id hu hs hok hj
    unfold transcribeWithAssemblyAI transcribeWithAssemblyAIBody
    simp [hu, hs, hok, hj]
  · intro vid t id pre
    induction pre with
    | nil =>
      intro s rest _ hend
      simp only [List.nil_append, pollLoop]
      rw [if_neg (not_lt.mpr hend)]
    | cons q pre ih =>
      intro s rest hpre hend
      obtain ⟨hlt, pres, pd, hres, hpok, hpjson, hnc, hne⟩ := hpre q (by simp)
      have hrec := ih s rest (fun r hr => hpre r (by simp [hr])) hend
      simp only [List.cons_append, pollLoop]
      simp [hlt, hres, hpok, hpjson, hnc, hne, hrec]
  · intro id
    exact ⟨rfl, rfl, rfl⟩

/-- Witness for C8 at a concrete run: the first iteration polls a
still-queued job under budget; the second begins at the 110-second mark,
so the loop (and the whole strategy) returns the soft failure carrying the
job id, never touching the second iteration's poll (which would have
thrown). -/
theorem stt_poll_budget_witness :
    transcribeWithAssemblyAI vidShort assemblyTimeoutEnv =
        pollTimeoutOutcome (("id1").data) ∧
      pollLoop vidShort (some titleW) (("id1").data) assemblyTimeoutEnv.steps =
        .ok (pollTimeoutOutcome (("id1").data)) := by
  have h2 := stt_poll_budget.2.1 vidShort (some titleW) (("id1").data)
    [{ elapsedMs := 0, result := .ok { ok := true, json := .ok queuedPoll } }]
    { elapsedMs := 110000, result := .error boomMsg } []
    (by
      intro q hq
      simp at hq
      subst hq
      exact ⟨by decide, { ok := true, json := .ok queuedPoll }, queuedPoll,
        rfl, rfl, rfl, by decide, by decide⟩)
    (by decide)
  have h2x : pollLoop vidShort (some titleW) (("id1").data) assemblyTimeoutEnv.steps =
      .ok (pollTimeoutOutcome (("id1").data)) := h2
  constructor
  · have h1 := stt_poll_budget.1 vidShort assemblyTimeoutEnv (("a").data)
      { ok := true, errMsg := [], json := .ok (("id1").data) } (("id1").data) rfl rfl rfl rfl
    rw [h1]
    have h2y : pollLoop vidShort assemblyTimeoutEnv.title (("id1").data)
        assemblyTimeoutEnv.steps = .ok (pollTimeoutOutcome (("id1").data)) := h2x
    rw [h2y]
  · exact h2x

/-- A character that fails the predicate survives `dropWhile`. -/
theorem mem_dropWhile_of_mem {p : Char → Bool} {a : Char} {l : Str}
    (h : a ∈ l) (ha : p a = false) : a ∈ l.dropWhile p := by
  induction l with
  | nil => exact absurd h (by simp)
  | cons b l ih =>
    rw [List.dropWhile_cons]
    by_cases hb : p b = true
    · rw [if_pos hb]
      rcases List.mem_cons.mp h with rfl | hm
      · rw [ha] at hb
        exact Bool.noConfusion hb
      · exact ih hm
    · rw [if_neg hb]
      exact h

/-- A non-whitespace character of a string survives trimming. -/
theorem mem_jsTrim {a : Char} {l : Str} (h : a ∈ l) (ha : a.isWhitespace = false) :
    a ∈ jsTrim l := by
  unfold jsTrim
  have h1 : a ∈ l.dropWhile Char.isWhitespace := mem_dropWhile_of_mem h ha
  have h2 : a ∈ (l.dropWhile Char.isWhitespace).reverse := List.mem_reverse.mpr h1
  exact List.mem_reverse.mpr (mem_dropWhile_of_mem h2 ha)

/-- A string holding a non-whitespace character trims to something
non-empty. -/
theorem jsTrim_ne_nil_of_mem {a : Char} {l : Str} (h : a ∈ l)
    (ha : a.isWhitespace = false) : jsTrim l ≠ [] :=
  List.ne_nil_of_mem (mem_jsTrim h ha)

/-- A string that trims to something non-empty holds a non-whitespace
character. -/
theorem exists_nonws_of_jsTrim_ne_nil {l : Str} (h : jsTrim l ≠ []) :
    ∃ a ∈ l, a.isWhitespace = false := by
  by_contra hc
  push_neg at hc
  apply h
  have h1 : l.dropWhile Char.isWhitespace = [] := by
    rw [List.dropWhile_eq_nil_iff]
    intro x hx
    simpa using hc x hx
  unfold jsTrim
  rw [h1]
  rfl

/-- Trimming is stable: an already-trimmed non-empty string stays
non-empty after trimming again. -/
theorem jsTrim_jsTrim_ne_nil {l : Str} (h : jsTrim l ≠ []) : jsTrim (jsTrim l) ≠ [] := by
  obtain ⟨a, ha, hw⟩ := exists_nonws_of_jsTrim_ne_nil h
  exact List.ne_nil_of_mem (mem_jsTrim (mem_jsTrim ha hw) hw)

/-- Math.round of a non-negative rational is non-negative. -/
theorem jsRound_nonneg {q : Rat} (h : 0 ≤ q) : (0 : Int) ≤ jsRound q := by
  unfold jsRound
  apply Rat.le_floor.mpr
  push_cast
  linarith

/-- The value of `x || 0` is non-negative when every present value is. -/
theorem ratOr0_nonneg (o : Option Rat) (h : ∀ q, o = some q → 0 ≤ q) : 0 ≤ ratOr0 o := by
  cases o with
  | none => simp [ratOr0]
  | some q => simpa [ratOr0] using h q rfl

/-- A pushed segment is valid when the accumulator is: non-negative start,
end not before the (scaled) start, and a text with substance. -/
theorem finalize_ok (c : CurSeg) (h1 : 0 ≤ c.start) (h2 : c.start * 1000 ≤ c.lastEnd)
    (h3 : jsTrim c.text ≠ []) : segOk (finalize c) = true := by
  unfold segOk finalize
  simp only [Bool.and_eq_true, decide_eq_true_eq]
  refine ⟨⟨?_, ?_⟩, ?_⟩
  · apply div_nonneg _ (by norm_num)
    exact_mod_cast jsRound_nonneg (mul_nonneg h1 (by norm_num))
  · apply div_nonneg _ (by norm_num)
    apply Int.cast_nonneg.mpr
    apply jsRound_nonneg
    have hle : c.start ≤ c.lastEnd / 1000 :=
      (le_div_iff₀ (by norm_num : (0 : Rat) < 1000)).mpr h2
    nlinarith
  · exact h3

/-- Validity invariant carried through the word-grouping fold: pushed
segments stay valid, and the running accumulator keeps a non-negative
start not past its last end and a text with substance. -/
theorem stepWord_fold_ok (ws : List Word) :
    ∀ (segs : List Segment) (cur : Option CurSeg),
      (∀ w ∈ ws, 0 ≤ w.start ∧ w.start ≤ w.«end» ∧ jsTrim w.text ≠ []) →
      List.Pairwise (fun a b => a.start ≤ b.start) ws →
      (∀ g ∈ segs, segOk g = true) →
      (∀ c, cur = some c → 0 ≤ c.start ∧ c.start * 1000 ≤ c.lastEnd ∧ jsTrim c.text ≠ [] ∧
        ∀ w ∈ ws, c.start * 1000 ≤ w.start) →
      (∀ g ∈ (ws.foldl stepWord (segs, cur)).1, segOk g = true) ∧
      (∀ c, (ws.foldl stepWord (segs, cur)).2 = some c →
        0 ≤ c.start ∧ c.start * 1000 ≤ c.lastEnd ∧ jsTrim c.text ≠ []) := by
  induction ws with
  | nil =>
    intro segs cur hw hp hsegs hcur
    refine ⟨hsegs, fun c hc => ?_⟩
    obtain ⟨a, b, d, _⟩ := hcur c hc
    exact ⟨a, b, d⟩
  | cons w ws ih =>
    intro segs cur hw hp hsegs hcur
    have hw0 := hw w (by simp)
    rw [List.foldl_cons]
    have hptail := (List.pairwise_cons.mp hp).2
    have hphead := (List.pairwise_cons.mp hp).1
    have hwtail : ∀ v ∈ ws, 0 ≤ v.start ∧ v.start ≤ v.«end» ∧ jsTrim v.text ≠ [] :=
      fun v hv => hw v (by simp [hv])
    have hfresh : ∀ c2, some (addWord (newSeg w) w) = some c2 →
        0 ≤ c2.start ∧ c2.start * 1000 ≤ c2.lastEnd ∧ jsTrim c2.text ≠ [] ∧
          ∀ v ∈ ws, c2.start * 1000 ≤ v.start := by
      intro c2 hc5
      injection hc5 with hc5
      subst hc5
      have htext : (addWord (newSeg w) w).text = w.text := by
        simp [addWord, newSeg]
      refine ⟨?_, ?_, ?_, ?_⟩
      · exact div_nonneg hw0.1 (by norm_num)
      · show w.start / 1000 * 1000 ≤ w.«end»
        rw [div_mul_cancel₀ _ (by norm_num : (1000 : Rat) ≠ 0)]
        exact hw0.2.1
      · rw [htext]
        exact hw0.2.2
      · intro v hv
        show w.start / 1000 * 1000 ≤ v.start
        rw [div_mul_cancel₀ _ (by norm_num : (1000 : Rat) ≠ 0)]
        exact hphead v hv
    cases hcq : cur with
    | none =>
      have hstep : stepWord (segs, none) w = (segs, some (addWord (newSeg w) w)) := by
        simp [stepWord, needsNewSegment]
      rw [hstep]
      exact ih _ _ hwtail hptail hsegs hfresh
    | some c =>
      obtain ⟨hc1, hc2, hc3, hc4⟩ := hcur c hcq
      by_cases hnew : needsNewSegment (some c) w = true
      · have hstep : stepWord (segs, some c) w =
            (segs ++ [finalize c], some (addWord (newSeg w) w)) := by
          simp [stepWord, hnew]
        rw [hstep]
        apply ih _ _ hwtail hptail _ hfresh
        intro g hg
        rcases List.mem_append.mp hg with hg2 | hg2
        · exact hsegs g hg2
        · rw [List.mem_singleton.mp hg2]
          exact finalize_ok c hc1 hc2 hc3
      · have hnew2 : needsNewSegment (some c) w = false := by
          simpa using hnew
        have hstep : stepWord (segs, some c) w = (segs, some (addWord c w)) := by
          simp [stepWord, hnew2]
        rw [hstep]
        apply ih _ _ hwtail hptail hsegs
        intro c2 hc5
        injection hc5 with hc5
        subst hc5
        obtain ⟨a, ha, haw⟩ := exists_nonws_of_jsTrim_ne_nil hw0.2.2
        refine ⟨hc1, ?_, ?_, ?_⟩
        · show c.start * 1000 ≤ w.«end»
          calc c.start * 1000 ≤ w.start := hc4 w (by simp)
            _ ≤ w.«end» := hw0.2.1
        · apply jsTrim_ne_nil_of_mem _ haw
          show a ∈ c.text ++ (if c.text = [] then [] else ([' '])) ++ w.text
          exact List.mem_append.mpr (Or.inr ha)
        · intro v hv
          exact hc4 v (by simp [hv])

/-- Counterexample to C1 as stated: a json3 caption event may carry a
negative `tStartMs` (nothing in the code guards against it), and the
Innertube strategy then reports a successful outcome whose only segment
has `start = -1 < 0`. -/
theorem segment_invariant_counterexample :
    tryInnertubeCaption vidShort innertubeNegEnv = negOutcomeW ∧
      (negOutcomeW.data.map (fun d => d.segments)).getD [] =
        [{ start := (-1000 : Rat) / 1000, duration := (0 : Rat) / 1000, text := hiStr }] ∧
      (-1000 : Rat) / 1000 < 0 := by
  refine ⟨rfl, rfl, by norm_num⟩

/-- C1 amended: every segment produced by the four segment mappings
(caption-extractor mapping, json3 event parsing, Supadata segment mapping,
STT word regrouping) satisfies `start ≥ 0`, `duration ≥ 0` and has a
non-empty trimmed text, provided the upstream numeric inputs are
non-negative and — for the word regrouping — the words are ordered by
start, each word ends no earlier than it starts and has a text with a
non-whitespace character, and a fullText used in place of missing
word-level data trims to something non-empty. -/
theorem segment_invariant_amended :
    (∀ subs : List Subtitle,
      (∀ s ∈ subs, (∀ q, s.start = some q → 0 ≤ q) ∧ (∀ q, s.dur = some q → 0 ≤ q)) →
      ∀ g ∈ extractorSegments subs, segOk g = true) ∧
    (∀ events : List Json3Event,
      (∀ e ∈ events, (∀ q, e.tStartMs = some q → 0 ≤ q) ∧
        (∀ q, e.dDurationMs = some q → 0 ≤ q)) →
      ∀ g ∈ parseJson3Events events, segOk g = true) ∧
    (∀ raw : List SupaSeg,
      (∀ s ∈ raw, (∀ q, s.offset = some q → 0 ≤ q) ∧ (∀ q, s.start = some q → 0 ≤ q) ∧
        (∀ q, s.duration = some q → 0 ≤ q) ∧ (∀ q, s.dur = some q → 0 ≤ q)) →
      ∀ g ∈ supaSegments raw, segOk g = true) ∧
    (∀ (words : List Word) (fullText : Str),
      (∀ w ∈ words, 0 ≤ w.start ∧ w.start ≤ w.«end» ∧ jsTrim w.text ≠ []) →
      List.Pairwise (fun a b => a.start ≤ b.start) words →
      (fullText = [] ∨ jsTrim fullText ≠ []) →
      ∀ g ∈ groupWordsIntoSegments words fullText, segOk g = true) := by
  refine ⟨?_, ?_, ?_, ?_⟩
  · intro subs hsub g hg
    unfold extractorSegments at hg
    obtain ⟨s, hs, rfl⟩ := List.mem_map.mp hg
    have hmem := List.mem_of_mem_filter hs
    have hfilt := List.of_mem_filter hs
    simp only [Bool.and_eq_true, decide_eq_true_eq] at hfilt
    have hnum := hsub s hmem
    unfold segOk
    simp only [Bool.and_eq_true, decide_eq_true_eq]
    exact ⟨⟨ratOr0_nonneg _ hnum.1, ratOr0_nonneg _ hnum.2⟩,
      jsTrim_jsTrim_ne_nil hfilt.2⟩
  · intro events hev g hg
    unfold parseJson3Events at hg
    have hg1 := List.mem_of_mem_filter hg
    have hq := List.of_mem_filter hg
    obtain ⟨e, he, rfl⟩ := List.mem_map.mp hg1
    have hmem := List.mem_of_mem_filter he
    have hnum := hev e hmem
    simp only [decide_eq_true_eq] at hq
    unfold segOk
    simp only [Bool.and_eq_true, decide_eq_true_eq]
    refine ⟨⟨?_, ?_⟩, ?_⟩
    · exact div_nonneg (ratOr0_nonneg _ hnum.1) (by norm_num)
    · exact div_nonneg (ratOr0_nonneg _ hnum.2) (by norm_num)
    · apply jsTrim_jsTrim_ne_nil
      intro hn
      rw [hn] at hq
      simp at hq
  · intro raw hraw g hg
    unfold supaSegments at hg
    obtain ⟨s, hs, rfl⟩ := List.mem_map.mp hg
    have hmem := List.mem_of_mem_filter hs
    have hfilt := List.of_mem_filter hs
    have hnum := hraw s hmem
    unfold segOk
    simp only [Bool.and_eq_true, decide_eq_true_eq]
    refine ⟨⟨?_, ?_⟩, ?_⟩
    · apply ratOr0_nonneg
      intro q hq
      cases ho : s.offset with
      | some o =>
        rw [ho] at hq
        injection hq with hq
        subst hq
        exact div_nonneg (hnum.1 o ho) (by norm_num)
      | none =>
        rw [ho] at hq
        exact hnum.2.1 q hq
    · apply ratOr0_nonneg
      intro q hq
      cases ho : s.duration with
      | some o =>
        rw [ho] at hq
        injection hq with hq
        subst hq
        exact div_nonneg (hnum.2.2.1 o ho) (by norm_num)
      | none =>
        rw [ho] at hq
        exact hnum.2.2.2 q hq
    · cases ht : s.text with
      | some t =>
        rw [ht] at hfilt
        simp only [decide_eq_true_eq] at hfilt
        exact jsTrim_jsTrim_ne_nil hfilt
      | none =>
        rw [ht] at hfilt
        exact Bool.noConfusion hfilt
  · intro words fullText hw hp hft g hg
    unfold groupWordsIntoSegments at hg
    by_cases hempty : words.isEmpty
    · rw [if_pos hempty] at hg
      rcases hft with rfl | htr
      · simp at hg
      · have hne : fullText ≠ [] := by
          intro hn
          rw [hn] at htr
          exact htr rfl
        rw [if_pos hne] at hg
        rw [List.mem_singleton.mp hg]
        unfold segOk
        simp only [Bool.and_eq_true, decide_eq_true_eq]
        exact ⟨⟨le_refl 0, le_refl 0⟩, htr⟩
    · rw [if_neg hempty] at hg
      obtain ⟨hsegs, hcur⟩ := stepWord_fold_ok words [] none hw hp (by simp)
        (fun c hc => Option.noConfusion hc)
      cases hc2 : (words.foldl stepWord ([], none)).2 with
      | none =>
        refine hsegs g ?_
        simpa only [hc2] using hg
      | some c =>
        obtain ⟨h1, h2, h3⟩ := hcur c hc2
        by_cases htext : c.text ≠ []
        · have hg2 : g ∈ (words.foldl stepWord ([], none)).1 ++ [finalize c] := by
            simpa only [hc2, if_pos htext] using hg
          rcases List.mem_append.mp hg2 with hg3 | hg3
          · exact hsegs g hg3
          · rw [List.mem_singleton.mp hg3]
            exact finalize_ok c h1 h2 h3
        · have hg2 : g ∈ (words.foldl stepWord ([], none)).1 := by
            simpa only [hc2, if_neg htext] using hg
          exact hsegs g hg2

/-- Witness for C1 on concrete inputs: one segment from each of the four
mappings, each valid. -/
theorem segment_invariant_amended_witness :
    segOk { start := (1 : Rat), duration := 2, text := hiStr } = true ∧
      segOk { start := (1000 : Rat) / 1000, duration := (2000 : Rat) / 1000,
              text := hiStr } = true ∧
      segOk { start := (3000 : Rat) / 1000, duration := (2000 : Rat) / 1000,
              text := hiStr } = true ∧
      segOk (finalize (addWord (newSeg wordW) wordW)) = true := by
  have h := segment_invariant_amended
  refine ⟨?_, ?_, ?_, ?_⟩
  · apply h.1 [{ start := some 1, dur := some 2, text := hiStr }]
    · intro s hs
      rw [List.mem_singleton.mp hs]
      constructor <;> (intro q hq; injection hq with hq; subst hq; norm_num)
    · exact List.mem_singleton.mpr rfl
  · apply h.2.1 [okEvent]
    · intro e he
      rw [List.mem_singleton.mp he]
      constructor <;> (intro q hq; injection hq with hq; subst hq; norm_num)
    · exact List.mem_singleton.mpr rfl
  · apply h.2.2.1 [supaRawW]
    · intro s hs
      rw [List.mem_singleton.mp hs]
      refine ⟨?_, ?_, ?_, ?_⟩ <;> (intro q hq; first
        | (injection hq with hq; subst hq; norm_num)
        | exact Option.noConfusion hq)
    · exact List.mem_singleton.mpr rfl
  · apply h.2.2.2 [wordW] hiStr
    · intro w hwm
      rw [List.mem_singleton.mp hwm]
      refine ⟨by norm_num [wordW], by norm_num [wordW], by decide⟩
    · simp
    · right
      decide
    · exact List.mem_singleton.mpr rfl

/-- Appending words increases the accumulator's word count one by one. -/
theorem foldl_addWord_wordCount (ws : List Word) :
    ∀ c : CurSeg, (ws.foldl addWord c).wordCount = c.wordCount + ws.length := by
  induction ws with
  | nil => intro c; simp
  | cons w ws ih =>
    intro c
    rw [List.foldl_cons, ih]
    simp [addWord]
    omega

/-- Appending words keeps the accumulator's text non-empty. -/
theorem foldl_addWord_text_ne (ws : List Word) :
    ∀ c : CurSeg, c.text ≠ [] → (ws.foldl addWord c).text ≠ [] := by
  induction ws with
  | nil => intro c h; simpa using h
  | cons w ws ih =>
    intro c h
    rw [List.foldl_cons]
    apply ih
    simp [addWord, h]

/-- The last character of the accumulated text after adding a word with a
non-empty text is that word's last character. -/
theorem endsPunct_addWord (c : CurSeg) (w : Word) (h : w.text ≠ []) :
    endsPunct (addWord c w).text = endsPunct w.text := by
  unfold endsPunct addWord
  have h1 : ((if c.text = [] then [] else ([' '])) ++ w.text) ≠ [] := by
    simp [h]
  rw [List.append_assoc, List.getLast?_append_of_ne_nil _ h1,
    List.getLast?_append_of_ne_nil _ h]

/-- The chain' form of the gap hypothesis yields the threaded form. -/
theorem chainGap_of_chain' (w : Word) (ws : List Word)
    (h : List.Chain' (fun a b => b.start - a.«end» ≤ 1500) (w :: ws)) :
    chainGap w.«end» ws := by
  induction ws generalizing w with
  | nil => trivial
  | cons v ws ih =>
    rw [List.chain'_cons] at h
    exact ⟨h.1, ih v h.2⟩

/-- One loop iteration only appends to the pushed-segment list; the list
part can be factored out of the fold. -/
theorem stepWord_split (segs : List Segment) (cur : Option CurSeg) (w : Word) :
    stepWord (segs, cur) w =
      (segs ++ (stepWord ([], cur) w).1, (stepWord ([], cur) w).2) := by
  cases cur with
  | none => simp [stepWord, needsNewSegment]
  | some c =>
    by_cases hn : needsNewSegment (some c) w = true
    · simp [stepWord, hn]
    · have hn2 : needsNewSegment (some c) w = false := by simpa using hn
      simp [stepWord, hn2]

/-- The pushed-segment list factors out of the whole fold. -/
theorem foldl_stepWord_append_segs (ws : List Word) :
    ∀ (segs : List Segment) (cur : Option CurSeg),
      ws.foldl stepWord (segs, cur) =
        (segs ++ (ws.foldl stepWord ([], cur)).1, (ws.foldl stepWord ([], cur)).2) := by
  induction ws with
  | nil =>
    intro segs cur
    simp
  | cons w ws ih =>
    intro segs cur
    rw [List.foldl_cons, List.foldl_cons, stepWord_split segs cur w,
      ih (segs ++ (stepWord ([], cur) w).1) ((stepWord ([], cur) w).2)]
    have heta : stepWord ([], cur) w = ((stepWord ([], cur) w).1, (stepWord ([], cur) w).2) :=
      rfl
    rw [heta, ih ((stepWord ([], cur) w).1) ((stepWord ([], cur) w).2)]
    simp

/-- A run of words that stays under the 18-word bound, under the gap
bound, and free of terminal punctuation keeps extending the same
accumulator and pushes nothing. -/
theorem foldl_stepWord_run (ws : List Word) :
    ∀ (segs : List Segment) (c : CurSeg),
      c.wordCount + ws.length ≤ 18 →
      1 ≤ c.wordCount →
      c.text ≠ [] →
      endsPunct c.text = false →
      chainGap c.lastEnd ws →
      (∀ v ∈ ws, v.text ≠ [] ∧ endsPunct v.text = false) →
      ws.foldl stepWord (segs, some c) = (segs, some (ws.foldl addWord c)) := by
  induction ws with
  | nil =>
    intro segs c _ _ _ _ _ _
    simp
  | cons v ws ih =>
    intro segs c hcount hone htext hpunct hgap hvs
    rw [List.length_cons] at hcount
    have hv0 := hvs v (by simp)
    have hc1 : ¬ (18 ≤ c.wordCount) := by omega
    have hc2 : ¬ ((1500 : Rat) < v.start - c.lastEnd) := not_lt.mpr hgap.1
    have hfalse : needsNewSegment (some c) v = false := by
      simp [needsNewSegment, hc1, hc2, hpunct]
    have hstep : stepWord (segs, some c) v = (segs, some (addWord c v)) := by
      simp [stepWord, hfalse]
    rw [List.foldl_cons, hstep, List.foldl_cons]
    apply ih
    · have : (addWord c v).wordCount = c.wordCount + 1 := by simp [addWord]
      rw [this]
      omega
    · have : (addWord c v).wordCount = c.wordCount + 1 := by simp [addWord]
      omega
    · apply foldl_addWord_text_ne []
      simp [addWord, htext]
    · rw [endsPunct_addWord c v hv0.1]
      exact hv0.2
    · have : (addWord c v).lastEnd = v.«end» := by simp [addWord]
      rw [this]
      exact hgap.2
    · exact fun u hu => hvs u (by simp [hu])

/-- A full chunk run from a fresh accumulator: the first word opens the
accumulator and at most seventeen more are appended. -/
theorem foldl_stepWord_chunk (w : Word) (rest : List Word) (segs : List Segment)
    (hlen : rest.length + 1 ≤ 18)
    (htext : ∀ v ∈ w :: rest, v.text ≠ [] ∧ endsPunct v.text = false)
    (hgap : chainGap w.«end» rest) :
    (w :: rest).foldl stepWord (segs, none) =
      (segs, some (rest.foldl addWord (addWord (newSeg w) w))) := by
  rw [List.foldl_cons]
  have hstep : stepWord (segs, none) w = (segs, some (addWord (newSeg w) w)) := by
    simp [stepWord, needsNewSegment]
  rw [hstep]
  have hw0 := htext w (by simp)
  apply foldl_stepWord_run
  · have : (addWord (newSeg w) w).wordCount = 1 := by simp [addWord, newSeg]
    omega
  · have : (addWord (newSeg w) w).wordCount = 1 := by simp [addWord, newSeg]
    omega
  · have : (addWord (newSeg w) w).text = w.text := by simp [addWord, newSeg]
    rw [this]
    exact hw0.1
  · have : (addWord (newSeg w) w).text = w.text := by simp [addWord, newSeg]
    rw [this]
    exact hw0.2
  · have : (addWord (newSeg w) w).lastEnd = w.«end» := by simp [addWord]
    rw [this]
    exact hgap
  · exact fun u hu => htext u (by simp [hu])

/-- Pushing at an 18-word boundary: a full accumulator is flushed and a
fresh one opened. -/
theorem stepWord_boundary (segs : List Segment) (c : CurSeg) (w : Word)
    (hc : 18 ≤ c.wordCount) :
    stepWord (segs, some c) w = (segs ++ [finalize c], some (addWord (newSeg w) w)) := by
  have h : needsNewSegment (some c) w = true := by
    simp [needsNewSegment, hc]
  simp [stepWord, h]

/-- Equation for `groupWordsIntoSegments` on a non-empty word list. -/
theorem groupWords_nonempty_eq (words : List Word) (ft : Str) (h : words ≠ []) :
    groupWordsIntoSegments words ft =
      (match (words.foldl stepWord ([], none)).2 with
        | some c =>
          if c.text ≠ [] then (words.foldl stepWord ([], none)).1 ++ [finalize c]
          else (words.foldl stepWord ([], none)).1
        | none => (words.foldl stepWord ([], none)).1) := by
  unfold groupWordsIntoSegments
  rw [if_neg (by simp [h])]

/-- The gap condition restricts to prefixes. -/
theorem chainGap_take (n : Nat) :
    ∀ (lastEnd : Rat) (l : List Word), chainGap lastEnd l → chainGap lastEnd (l.take n) := by
  induction n with
  | zero =>
    intro le l h
    rw [List.take_zero]
    trivial
  | succ n ih =>
    intro le l h
    cases l with
    | nil => trivial
    | cons w ws =>
      rw [List.take_succ_cons]
      exact ⟨h.1, ih w.«end» ws h.2⟩

/-- Shape facts about the 18-word chunking: a short list is one chunk,
every chunk but the last holds exactly 18 words, and every chunk is a
non-empty list of at most 18 words. -/
theorem chunk18_facts :
    ∀ (n : Nat) (l : List Word), l.length ≤ n →
      ((l.length ≤ 18 ∧ l ≠ []) → chunk18 l = [l]) ∧
      (∀ p ∈ (chunk18 l).dropLast, p.length = 18) ∧
      (∀ p ∈ chunk18 l, p ≠ [] ∧ p.length ≤ 18) := by
  intro n
  induction n with
  | zero =>
    intro l hl
    have h0 : l = [] := List.length_eq_zero.mp (Nat.le_zero.mp hl)
    subst h0
    refine ⟨fun h => absurd rfl h.2, ?_, ?_⟩ <;> simp [chunk18]
  | succ n ihn =>
    intro l hl
    by_cases hnil : l = []
    · subst hnil
      refine ⟨fun h => absurd rfl h.2, ?_, ?_⟩ <;> simp [chunk18]
    · rw [chunk18, dif_neg hnil]
      by_cases hle : l.length ≤ 18
      · have hdrop : l.drop 18 = [] := by
          have : (l.drop 18).length = 0 := by
            rw [List.length_drop]
            omega
          exact List.length_eq_zero.mp this
        have htake : l.take 18 = l := (List.take_eq_self_iff l).mpr hle
        rw [hdrop, htake]
        refine ⟨fun _ => by simp [chunk18], ?_, ?_⟩
        · intro p hp
          simp [chunk18] at hp
        · intro p hp
          simp [chunk18] at hp
          subst hp
          exact ⟨hnil, hle⟩
      · push_neg at hle
        have hdne : l.drop 18 ≠ [] := by
          intro h0
          have := congrArg List.length h0
          rw [List.length_drop] at this
          simp at this
          omega
        have ihd := ihn (l.drop 18) (by rw [List.length_drop]; omega)
        have htakelen : (l.take 18).length = 18 := by
          rw [List.length_take]
          omega
        have hcne : chunk18 (l.drop 18) ≠ [] := by
          rw [chunk18, dif_neg hdne]
          simp
        refine ⟨fun h => absurd h.1 (by omega), ?_, ?_⟩
        · intro p hp
          rw [List.dropLast_cons_of_ne_nil hcne] at hp
          rcases List.mem_cons.mp hp with rfl | hp2
          · exact htakelen
          · exact ihd.2.1 p hp2
        · intro p hp
          rcases List.mem_cons.mp hp with rfl | hp2
          · refine ⟨?_, by omega⟩
            intro h0
            rw [h0] at htakelen
            simp at htakelen
          · exact ihd.2.2 p hp2

/-- The final push applied after a fold that started from a full (18-word)
accumulator: the full accumulator is flushed first and the rest of the
run behaves as a fresh grouping of the remaining words. -/
theorem groupWords_shift (b : List Word) (ft : Str) (hb : b ≠ []) (cA : CurSeg)
    (hcount : 18 ≤ cA.wordCount) :
    (match (b.foldl stepWord ([], some cA)).2 with
      | some c =>
        if c.text ≠ [] then (b.foldl stepWord ([], some cA)).1 ++ [finalize c]
        else (b.foldl stepWord ([], some cA)).1
      | none => (b.foldl stepWord ([], some cA)).1) =
      finalize cA :: groupWordsIntoSegments b ft := by
  obtain ⟨b0, b2, rfl⟩ := List.exists_cons_of_ne_nil hb
  have hfold1 : (b0 :: b2).foldl stepWord ([], some cA) =
      ([finalize cA] ++ (b2.foldl stepWord ([], some (addWord (newSeg b0) b0))).1,
        (b2.foldl stepWord ([], some (addWord (newSeg b0) b0))).2) := by
    rw [List.foldl_cons, stepWord_boundary [] cA b0 hcount]
    rw [foldl_stepWord_append_segs b2 ([] ++ [finalize cA]) (some (addWord (newSeg b0) b0))]
    simp
  have hfold2 : (b0 :: b2).foldl stepWord ([], none) =
      b2.foldl stepWord ([], some (addWord (newSeg b0) b0)) := by
    rw [List.foldl_cons]
    have : stepWord ([], none) b0 = ([], some (addWord (newSeg b0) b0)) := by
      simp [stepWord, needsNewSegment]
    rw [this]
  rw [groupWords_nonempty_eq _ ft (by simp), hfold1, hfold2]
  cases hx : (b2.foldl stepWord ([], some (addWord (newSeg b0) b0))).2 with
  | none => simp
  | some c =>
    by_cases hct : c.text ≠ []
    · simp [hct]
    · simp [hct]

/-- The grouping loop splits a word stream with no pause breaks and no
terminal punctuation exactly at the 18-word boundaries. -/
theorem groupWords_chunks_aux (ft : Str) :
    ∀ (n : Nat) (words : List Word), words.length ≤ n → words ≠ [] →
      (∀ v ∈ words, v.text ≠ [] ∧ endsPunct v.text = false) →
      List.Chain' (fun a b => b.start - a.«end» ≤ 1500) words →
      groupWordsIntoSegments words ft = (chunk18 words).map chunkSeg := by
  intro n
  induction n with
  | zero =>
    intro words hl hne _ _
    exact absurd (List.length_eq_zero.mp (Nat.le_zero.mp hl)) hne
  | succ n ihn =>
    intro words hl hne htext hchain
    obtain ⟨w, rest, rfl⟩ := List.exists_cons_of_ne_nil hne
    rw [List.length_cons] at hl
    have hgap : chainGap w.«end» rest := chainGap_of_chain' w rest hchain
    by_cases hle : (w :: rest).length ≤ 18
    · have hrun := foldl_stepWord_chunk w rest []
        (by rw [List.length_cons] at hle; omega) htext hgap
      rw [groupWords_nonempty_eq _ ft (by simp), hrun]
      have htne : (rest.foldl addWord (addWord (newSeg w) w)).text ≠ [] := by
        apply foldl_addWord_text_ne
        have h2 : (addWord (newSeg w) w).text = w.text := by simp [addWord, newSeg]
        rw [h2]
        exact (htext w (by simp)).1
      have hch : chunk18 (w :: rest) = [w :: rest] :=
        (chunk18_facts (w :: rest).length (w :: rest) le_rfl).1 ⟨hle, by simp⟩
      rw [hch]
      simp [htne, chunkSeg]
    · push_neg at hle
      rw [List.length_cons] at hle
      have hrlen : 18 ≤ rest.length := by omega
      have hsplit : rest.take 17 ++ rest.drop 17 = rest := List.take_append_drop 17 rest
      have htake17 : (rest.take 17).length = 17 := by
        rw [List.length_take]
        omega
      have hbne : rest.drop 17 ≠ [] := by
        intro h0
        have := congrArg List.length h0
        rw [List.length_drop] at this
        simp at this
        omega
      have hwA : ∀ v ∈ w :: rest.take 17, v.text ≠ [] ∧ endsPunct v.text = false := by
        intro v hv
        rcases List.mem_cons.mp hv with rfl | hv2
        · exact htext v (by simp)
        · exact htext v (by simp [List.mem_of_mem_take hv2])
      have hfoldA : (w :: rest.take 17).foldl stepWord ([], none) =
          ([], some ((rest.take 17).foldl addWord (addWord (newSeg w) w))) :=
        foldl_stepWord_chunk w (rest.take 17) [] (by omega) hwA
          (chainGap_take 17 w.«end» rest hgap)
      have hcount : 18 ≤ ((rest.take 17).foldl addWord (addWord (newSeg w) w)).wordCount := by
        rw [foldl_addWord_wordCount]
        have : (addWord (newSeg w) w).wordCount = 1 := by simp [addWord, newSeg]
        omega
      have htA : ((rest.take 17).foldl addWord (addWord (newSeg w) w)).text ≠ [] := by
        apply foldl_addWord_text_ne
        have h2 : (addWord (newSeg w) w).text = w.text := by simp [addWord, newSeg]
        rw [h2]
        exact (htext w (by simp)).1
      have hfold : (w :: rest).foldl stepWord ([], none) =
          (rest.drop 17).foldl stepWord
            ([], some ((rest.take 17).foldl addWord (addWord (newSeg w) w))) := by
        conv_lhs => rw [show w :: rest = (w :: rest.take 17) ++ rest.drop 17 by
          rw [List.cons_append, hsplit]]
        rw [List.foldl_append, hfoldA]
      rw [groupWords_nonempty_eq _ ft (by simp), hfold]
      rw [groupWords_shift (rest.drop 17) ft hbne _ hcount]
      have hIH := ihn (rest.drop 17) (by rw [List.length_drop]; omega) hbne
        (fun v hv => htext v (by simp [List.mem_of_mem_drop hv]))
        (by
          have := List.Chain'.drop hchain 18
          rw [List.drop_succ_cons] at this
          exact this)
      rw [hIH]
      have hch : chunk18 (w :: rest) = (w :: rest.take 17) :: chunk18 (rest.drop 17) := by
        rw [chunk18, dif_neg (by simp : ¬ (w :: rest) = [])]
        rw [List.take_succ_cons, List.drop_succ_cons]
      rw [hch, List.map_cons]
      rfl

/-- Counterexample to C3 as stated: a one-word stream whose word has an
empty text satisfies the claim's hypotheses (no pause over 1.5 s, no
accumulated text ending in terminal punctuation), yet the final push is
skipped because the accumulated text is empty, so zero segments are
produced instead of the claimed one. -/
theorem stt_grouping_counterexample :
    groupWordsIntoSegments [{ start := 0, «end» := 500, text := ([] : Str) }] [] = [] ∧
      endsPunct ([] : Str) = false :=
  ⟨rfl, rfl⟩

/-- C3 amended: for a word stream whose words carry non-empty texts, with
no gap over 1.5 seconds between one word's end and the next word's start,
and no word text ending in '.', '?' or '!', the grouping is exactly the
18-word chunking: one segment per chunk of 18 (the last chunk possibly
shorter), hence exactly one segment when the stream has at most 18
words. -/
theorem stt_grouping_chunks (words : List Word) (ft : Str)
    (hne : words ≠ [])
    (htext : ∀ v ∈ words, v.text ≠ [] ∧ endsPunct v.text = false)
    (hchain : List.Chain' (fun a b => b.start - a.«end» ≤ 1500) words) :
    groupWordsIntoSegments words ft = (chunk18 words).map chunkSeg ∧
      (words.length ≤ 18 → groupWordsIntoSegments words ft = [chunkSeg words]) ∧
      (∀ p ∈ (chunk18 words).dropLast, p.length = 18) ∧
      (∀ p ∈ chunk18 words, p ≠ [] ∧ p.length ≤ 18) := by
  have hmain := groupWords_chunks_aux ft words.length words le_rfl hne htext hchain
  have hfacts := chunk18_facts words.length words le_rfl
  refine ⟨hmain, ?_, hfacts.2.1, hfacts.2.2⟩
  intro h18
  rw [hmain, hfacts.1 ⟨h18, hne⟩]
  rfl

/-- Witness for C3 on a concrete two-word stream (gap of half a second,
no punctuation): one segment, the chunk segment of the two words. -/
theorem stt_grouping_chunks_witness :
    groupWordsIntoSegments [wordW, word2W] [] = [chunkSeg [wordW, word2W]] := by
  refine (stt_grouping_chunks [wordW, word2W] [] (by simp) ?_ ?_).2.1 (by simp)
  · intro v hv
    simp only [List.mem_cons, List.not_mem_nil, or_false] at hv
    rcases hv with rfl | rfl <;> exact ⟨by decide, by decide⟩
  · simp only [List.chain'_cons, List.chain'_singleton, and_true]
    show word2W.start - wordW.«end» ≤ 1500
    norm_num [wordW, word2W]

end Transcriptgrab
